import Mathlib

/-!
# go_concurrent: countdown latch, cyclic barrier, semaphore, future

A shallow embedding of the four synchronisation primitives of the repository
(`count_down_latch.go`, `cyclic_barrier.go`, `semaphore.go`, `future_go.go`,
`future_task.go`) and theorems about them.

Modelling conventions, shared by all four primitives:

* The functions named after the operations (`Await`, `Acquire`, `Release`,
  ...) are calls that run without interruption: a compare-and-swap retry
  loop is taken at its successful iteration (a failed iteration changes
  nothing and retries), and the channel operation that follows the swap in
  the same call belongs to the same transition. A run of such calls is a
  sequence of calls, one after the other.
* Where the order of statements of different goroutines matters, the
  goroutine is a program counter that moves statement by statement and the
  scheduler picks who moves: `BarrierRun.step` for calls of `Await`,
  `FutureRun.goStep` for the goroutine of `FutureGo`.
* A goroutine that has to wait is not a value that is returned: the call
  reports `parked` / `blocked`, and the state records who waits on what.
* Channels are named by numbers. A receive on a closed channel returns at
  once; a receive on an open unbuffered channel parks until a sender arrives.
* `uint32` and `int32` are `Nat` and `Int` with explicit wrap-around.
-/

namespace GoConcurrent

/-! ## Cyclic barrier (`cyclic_barrier.go`) -/

/-- The behaviours of a `BarrierAction` (a Go `func()`) that the barrier can
tell apart: the call comes back, or it panics. -/
inductive BarrierAction where
  | returns
  | panics
deriving DecidableEq, Repr

/-- The struct `CyclicBarrier` together with what the runtime knows about its
channels. `blockingQueue` is the number of the channel held in the field;
`closed` lists the channels closed so far; `parked` lists, newest first, every
receive `<-b.blockingQueue` that began on a channel open at that time, as
(party, channel); `commandRuns` counts the calls of `barrierCommand`. -/
structure CyclicBarrier where
  parties : Nat
  count : Nat
  barrierCommand : BarrierAction
  blockingQueue : Nat
  closed : List Nat
  parked : List (Nat × Nat)
  commandRuns : Nat
deriving DecidableEq, Repr

/-- How one call of `Await` ends: it waits in `<-b.blockingQueue` on the given
channel, it returns after running the command, or the command panicked. -/
inductive AwaitResult where
  | parked (ch : Nat)
  | returned
  | panicked
deriving DecidableEq, Repr

/-- `NewCyclicBarrier(parties, barrier)`: both counters start at `parties`,
the gate is a fresh channel (number 0). -/
def NewCyclicBarrier (parties : Nat) (barrier : BarrierAction) : CyclicBarrier :=
  { parties := parties
    count := parties
    barrierCommand := barrier
    blockingQueue := 0
    closed := []
    parked := []
    commandRuns := 0 }

/-- `breakBarrier`: `b.count = b.parties`, then the field gets a fresh channel
(the next number) and the channel it held is closed. -/
def breakBarrier (b : CyclicBarrier) : CyclicBarrier :=
  let b1 := { b with count := b.parties }
  let bq := b1.blockingQueue
  let b2 := { b1 with blockingQueue := bq + 1 }
  { b2 with closed := bq :: b2.closed }

/-- `Await`, called by party `p` and run without any other goroutine taking
a step until the call has returned, panicked, or waits. The loop reads
`b.parties`; at 0 or 1 it jumps to `RESET`, where the command runs and the
deferred `breakBarrier` runs after it (also when the command panics).
Otherwise the swap installs `current - 1` in `b.parties` and the party
receives from `b.blockingQueue`. Calls whose statements interleave are
`BarrierRun.step`. -/
def Await (b : CyclicBarrier) (p : Nat) : CyclicBarrier × AwaitResult :=
  let current := b.parties
  if current == 0 || current == 1 then
    let b1 := { b with commandRuns := b.commandRuns + 1 }
    match b.barrierCommand with
    | BarrierAction.returns => (breakBarrier b1, AwaitResult.returned)
    | BarrierAction.panics => (breakBarrier b1, AwaitResult.panicked)
  else
    let newValue := current - 1
    ({ b with parties := newValue, parked := (p, b.blockingQueue) :: b.parked },
      AwaitResult.parked b.blockingQueue)

/-- `Reset`: just `breakBarrier`. -/
def Reset (b : CyclicBarrier) : CyclicBarrier :=
  breakBarrier b

/-- The parties of the list arrive at `Await` one after the other. -/
def awaitAll (b : CyclicBarrier) : List Nat → CyclicBarrier
  | [] => b
  | p :: ps => awaitAll (Await b p).1 ps

/-- The receives still waiting: those whose channel has not been closed. -/
def stillParked (b : CyclicBarrier) : List (Nat × Nat) :=
  b.parked.filter (fun w => !(b.closed.contains w.2))

/-- The bookkeeping of channels is consistent: the closed channels are gates
the field held earlier (their numbers are below the current one), and every
receive recorded in `parked` is on the current gate or on a closed one. -/
def CyclicBarrier.wellFormed (b : CyclicBarrier) : Prop :=
  (∀ c ∈ b.closed, c < b.blockingQueue) ∧
  (∀ w ∈ b.parked, w.2 = b.blockingQueue ∨ w.2 ∈ b.closed)

instance (b : CyclicBarrier) : Decidable b.wellFormed := by
  unfold CyclicBarrier.wellFormed
  infer_instance

/-- Where a goroutine stands inside one call of `Await`, statement by
statement: before the load of `b.parties`; before the swap, with the value it
loaded; after a successful swap, before it reads `b.blockingQueue` and
receives; waiting in the receive on a channel; at `RESET`, before the call of
the command; then inside the deferred `breakBarrier`, before
`b.count = b.parties`, before `bq := b.blockingQueue`, before
`b.blockingQueue = make(chan struct{})`, before `close(bq)`; returned;
ended by a panic. The steps of `breakBarrier` carry whether the command
panicked, and the local `bq` once it is read. -/
inductive AwaitPc where
  | load
  | swap (current : Nat)
  | recv
  | waiting (ch : Nat)
  | command
  | breakCount (panicking : Bool)
  | breakRead (panicking : Bool)
  | breakMake (panicking : Bool) (bq : Nat)
  | breakClose (panicking : Bool) (bq : Nat)
  | returned
  | panicked
deriving DecidableEq, Repr

/-- A barrier shared by goroutines that are each inside one call of `Await`:
goroutine `i` stands at `pcs[i]`. -/
structure BarrierRun where
  barrier : CyclicBarrier
  pcs : List AwaitPc
deriving DecidableEq, Repr

/-- The barrier `b` and `n` goroutines, each about to begin `Await`. -/
def BarrierRun.start (b : CyclicBarrier) (n : Nat) : BarrierRun :=
  { barrier := b, pcs := List.replicate n AwaitPc.load }

/-- Goroutine `i` executes its next statement of `Await`; the scheduler may
pick any goroutine at any time. The load sends the goroutine to `RESET` at 0
or 1. The swap succeeds when `b.parties` still has the loaded value and goes
back to the load otherwise. The receive reads the field `b.blockingQueue` at
that moment: on a closed channel it returns at once, on an open one the
goroutine waits until the channel is closed. The command runs before the
deferred `breakBarrier`, whose four statements are four steps; the new
channel takes the number after the one in the field. A goroutine that waits,
has returned or has panicked, and a number that names no goroutine, leave
the state as it is. -/
def BarrierRun.step (r : BarrierRun) (i : Nat) : BarrierRun :=
  match r.pcs[i]? with
  | none => r
  | some pc =>
    match pc with
    | AwaitPc.load =>
      let current := r.barrier.parties
      if current == 0 || current == 1 then
        { r with pcs := r.pcs.set i AwaitPc.command }
      else
        { r with pcs := r.pcs.set i (AwaitPc.swap current) }
    | AwaitPc.swap current =>
      if r.barrier.parties == current then
        { barrier := { r.barrier with parties := current - 1 },
          pcs := r.pcs.set i AwaitPc.recv }
      else
        { r with pcs := r.pcs.set i AwaitPc.load }
    | AwaitPc.recv =>
      let ch := r.barrier.blockingQueue
      if r.barrier.closed.contains ch then
        { r with pcs := r.pcs.set i AwaitPc.returned }
      else
        { barrier := { r.barrier with parked := (i, ch) :: r.barrier.parked },
          pcs := r.pcs.set i (AwaitPc.waiting ch) }
    | AwaitPc.waiting ch =>
      if r.barrier.closed.contains ch then
        { r with pcs := r.pcs.set i AwaitPc.returned }
      else
        r
    | AwaitPc.command =>
      match r.barrier.barrierCommand with
      | BarrierAction.returns =>
        { barrier := { r.barrier with commandRuns := r.barrier.commandRuns + 1 },
          pcs := r.pcs.set i (AwaitPc.breakCount false) }
      | BarrierAction.panics =>
        { barrier := { r.barrier with commandRuns := r.barrier.commandRuns + 1 },
          pcs := r.pcs.set i (AwaitPc.breakCount true) }
    | AwaitPc.breakCount panicking =>
      { barrier := { r.barrier with count := r.barrier.parties },
        pcs := r.pcs.set i (AwaitPc.breakRead panicking) }
    | AwaitPc.breakRead panicking =>
      { r with pcs := r.pcs.set i (AwaitPc.breakMake panicking r.barrier.blockingQueue) }
    | AwaitPc.breakMake panicking bq =>
      { barrier := { r.barrier with blockingQueue := r.barrier.blockingQueue + 1 },
        pcs := r.pcs.set i (AwaitPc.breakClose panicking bq) }
    | AwaitPc.breakClose panicking bq =>
      if r.barrier.closed.contains bq then
        { r with pcs := r.pcs.set i AwaitPc.panicked }
      else
        { barrier := { r.barrier with closed := bq :: r.barrier.closed },
          pcs := r.pcs.set i (if panicking then AwaitPc.panicked else AwaitPc.returned) }
    | AwaitPc.returned => r
    | AwaitPc.panicked => r

/-- The state after the goroutines of the schedule have each taken a step,
in that order. -/
def BarrierRun.run (r : BarrierRun) : List Nat → BarrierRun
  | [] => r
  | i :: sched => BarrierRun.run (r.step i) sched

/-- What the call of a goroutine has come to, in the terms of `Await`: it
waits on a channel, it has returned, it has panicked; `none` while it is
still under way. -/
def AwaitPc.result : AwaitPc → Option AwaitResult
  | AwaitPc.waiting ch => some (AwaitResult.parked ch)
  | AwaitPc.returned => some AwaitResult.returned
  | AwaitPc.panicked => some AwaitResult.panicked
  | _ => none

/-! ## Countdown latch (`count_down_latch.go`) -/

/-- The struct `CountDownLatch`: the two `uint32` fields, and whether the
channel `blockingQueue` has been closed. -/
structure CountDownLatch where
  count : Nat
  max : Nat
  closed : Bool
deriving DecidableEq, Repr

/-- `NewCountDownLatch(count)`: `max` is set, `count` is left at zero, the
channel is fresh. -/
def NewCountDownLatch (count : Nat) : CountDownLatch :=
  { count := 0, max := count, closed := false }

/-- The text `CountDown` panics with. -/
def tooManyCalls : String := "too many calls to CountDown"

/-- The text the runtime panics with when a closed channel is closed again. -/
def closeOfClosed : String := "close of closed channel"

/-- `CountDown`: `atomic.AddUint32(&c.count, 1)` wraps at `2^32` and gives
the new value; above `max` the call panics, at `max` it closes the channel.
The result is the state the call leaves and the panic text, if it panicked. -/
def CountDown (c : CountDownLatch) : CountDownLatch × Option String :=
  let count := (c.count + 1) % 2 ^ 32
  let c1 := { c with count := count }
  if count > c1.max then
    (c1, some tooManyCalls)
  else if count == c1.max then
    if c1.closed then (c1, some closeOfClosed) else ({ c1 with closed := true }, none)
  else
    (c1, none)

/-- `Await` of the latch is the receive `<-c.blockingQueue`; nothing is ever
sent on that channel, so the call returns exactly when the channel is closed
and waits otherwise. -/
def CountDownLatch.awaitReturns (c : CountDownLatch) : Bool :=
  c.closed

/-- A run of `k` calls of `CountDown`, one after the other; a panic ends the
run (the program dies), and is reported. -/
def countDowns : Nat → CountDownLatch → CountDownLatch × Option String
  | 0, c => (c, none)
  | k + 1, c =>
    match CountDown c with
    | (c1, none) => countDowns k c1
    | (c1, some msg) => (c1, some msg)

/-! ## Semaphore (`semaphore.go`) -/

/-- The conversion to `int32` and `int32` arithmetic: the value is taken
modulo `2^32` into the range from `-2^31` to `2^31 - 1`. -/
def wrapInt32 (x : Int) : Int :=
  (x + 2 ^ 31) % 2 ^ 32 - 2 ^ 31

/-- The struct `Semaphore` and the state of its unbuffered channel
`blockingQueue`: `receivers` goroutines wait in `<-s.blockingQueue`,
`senders` goroutines wait in `s.blockingQueue <- struct{}{}`. On an
unbuffered channel a receiver and a sender never wait at the same time. -/
structure Semaphore where
  permits : Int
  receivers : Nat
  senders : Nat
deriving DecidableEq, Repr

/-- How a call on the semaphore ends: with a return value, or waiting on the
channel. -/
inductive CallResult where
  | returned (ok : Bool)
  | blocked
deriving DecidableEq, Repr

/-- `NewSemaphore(permits)`: the `uint32` argument is converted with
`int32(permits)`. -/
def NewSemaphore (permits : Nat) : Semaphore :=
  { permits := wrapInt32 (permits : Int), receivers := 0, senders := 0 }

/-- `acquire(blocking)`: the swap installs `current - 1`; when `current == 0`
or the new value is negative the loop is left by `break`, and then the call
returns `false` if it is not blocking and receives from the channel if it is
(meeting a waiting sender at once, or waiting itself). Otherwise it returns
`true`. -/
def Semaphore.acquire (s : Semaphore) (blocking : Bool) : Semaphore × CallResult :=
  let current := s.permits
  let newValue := wrapInt32 (current - 1)
  let s1 := { s with permits := newValue }
  if current == 0 || newValue < 0 then
    if !blocking then
      (s1, CallResult.returned false)
    else if 0 < s1.senders then
      ({ s1 with senders := s1.senders - 1 }, CallResult.returned true)
    else
      ({ s1 with receivers := s1.receivers + 1 }, CallResult.blocked)
  else
    (s1, CallResult.returned true)

/-- `Acquire` is `s.acquire(true)`. -/
def Semaphore.Acquire (s : Semaphore) : Semaphore × CallResult :=
  s.acquire true

/-- `TryAcquire` is `s.acquire(false)`. -/
def Semaphore.TryAcquire (s : Semaphore) : Semaphore × CallResult :=
  s.acquire false

/-- `Release`: the swap installs `current + 1`; when the new value is `<= 0`
the call sends on the channel (handing over to one waiting receiver, whose
`Acquire` then returns `true`, or waiting itself when there is none).
`Release` has no result in Go: `returned true` only says that it returned. -/
def Semaphore.Release (s : Semaphore) : Semaphore × CallResult :=
  let current := s.permits
  let newValue := wrapInt32 (current + 1)
  let s1 := { s with permits := newValue }
  if newValue ≤ 0 then
    if 0 < s1.receivers then
      ({ s1 with receivers := s1.receivers - 1 }, CallResult.returned true)
    else
      ({ s1 with senders := s1.senders + 1 }, CallResult.blocked)
  else
    (s1, CallResult.returned true)

/-- A run of `k` calls of `Acquire`. -/
def acquires : Nat → Semaphore → Semaphore
  | 0, s => s
  | k + 1, s => acquires k s.Acquire.1

/-- A run of `k` calls of `Release`. -/
def releases : Nat → Semaphore → Semaphore
  | 0, s => s
  | k + 1, s => releases k s.Release.1

/-- The three calls a goroutine can make on a semaphore. -/
inductive SemOp where
  | acquire
  | tryAcquire
  | release
deriving DecidableEq, Repr

/-- One call on the semaphore: the state it leaves and how it ends. -/
def Semaphore.applyOp (s : Semaphore) : SemOp → Semaphore × CallResult
  | SemOp.acquire => s.Acquire
  | SemOp.tryAcquire => s.TryAcquire
  | SemOp.release => s.Release

/-- The state after a list of calls, in order. -/
def Semaphore.run (s : Semaphore) : List SemOp → Semaphore
  | [] => s
  | op :: ops => Semaphore.run (s.applyOp op).1 ops

/-- Whether every `TryAcquire` of the run returns `true`. -/
def Semaphore.tryAcquiresSucceed (s : Semaphore) : List SemOp → Bool
  | [] => true
  | op :: ops =>
    (op != SemOp.tryAcquire || (s.applyOp op).2 == CallResult.returned true) &&
      Semaphore.tryAcquiresSucceed (s.applyOp op).1 ops

/-- The count agrees with the callers waiting to receive: a negative count
`-k` goes with exactly `k` of them, a count that is not negative with none. -/
def Semaphore.countMatchesBlocked (s : Semaphore) : Prop :=
  (s.permits < 0 → (s.receivers : Int) = -s.permits) ∧ (0 ≤ s.permits → s.receivers = 0)

instance (s : Semaphore) : Decidable s.countMatchesBlocked := by
  unfold Semaphore.countMatchesBlocked
  infer_instance

/-! ## Future (`future_go.go`, `future_task.go`) -/

/-- Go `error` values that are not nil: the value of the package variable
`FutureTaskCancelledErr`, the error a done context reports, and any other
error, made by `errors.New` with the given text. -/
inductive GoError where
  | FutureTaskCancelledErr
  | contextErr (text : String)
  | errorsNew (text : String)
deriving DecidableEq, Repr

/-- The method `Error()`: the text of an error. `FutureTaskCancelledErr` is
`errors.New("future task cancelled")`. -/
def GoError.Error : GoError → String
  | GoError.FutureTaskCancelledErr => "future task cancelled"
  | GoError.contextErr text => text
  | GoError.errorsNew text => text

/-- A value that is not nil and that a task panics with, kept as the text
`fmt.Sprintf("%v", r)` gives for it; `recover()` returns it as is. The call
`panic(nil)` is a case of its own, `TaskOutcome.panicsNil`. -/
structure PanicValue where
  text : String
deriving DecidableEq, Repr

/-- What the call `task(ctx)` does: it returns a pair `(v, err)`, where `err`
is `none` for nil; or it panics with a value that is not nil; or it calls
`panic(nil)`. In the last case `recovered` is what `recover()` returns for
it, which the language version the package is built for decides (the source
has no `go.mod`): nil (`none`) before 1.21 or with `GODEBUG=panicnil=1`, and
a `*runtime.PanicNilError`, not nil, from 1.21 on. -/
inductive TaskOutcome (V : Type) where
  | returns (v : V) (err : Option GoError)
  | panics (r : PanicValue)
  | panicsNil (recovered : Option PanicValue)
deriving DecidableEq, Repr

/-- The struct `FutureTask[V]`. The channel `v` has capacity 1: `v` is its
buffer and `vClosed` says whether it has been closed. `ctx` is `none` while
the context is not done and `some e` once it is, `e` being `ctx.Err()`.
`cancelFuncCalls` counts the calls of `cancelFunc`. -/
structure FutureTask (V : Type) where
  v : Option V
  vClosed : Bool
  cancelled : Bool
  done : Bool
  err : Option GoError
  ctx : Option GoError
  cancelFuncCalls : Nat
deriving DecidableEq, Repr

/-- `newFutureTask(ctx, cancelFunc)`: the channel is made with capacity 1,
everything else has its zero value. The function `cancelFunc` is kept as the
count of its calls. -/
def newFutureTask {V : Type} (ctx : Option GoError) : FutureTask V :=
  { v := none, vClosed := false, cancelled := false, done := false, err := none,
    ctx := ctx, cancelFuncCalls := 0 }

/-- What a call of `Get` (or a receive from the channel) comes to: a pair
`(v, err)`, or waiting. -/
inductive GetResult (V : Type) where
  | returned (v : V) (err : Option GoError)
  | blocked
deriving DecidableEq, Repr

/-- The `select` of `Get`. The first case is ready when the channel holds a
value or is closed: a held value is taken out of the buffer, a closed empty
channel gives the zero value of `V`; the result is that value with `ft.err`.
The second case is ready when the context is done and gives the zero value
with `ctx.Err()`. When both are ready Go picks either: `pickCtx` says which.
When none is ready the call waits. -/
def FutureTask.selectGet {V : Type} [Inhabited V] (ft : FutureTask V) (pickCtx : Bool) :
    FutureTask V × GetResult V :=
  let chanReady := ft.v.isSome || ft.vClosed
  match ft.ctx with
  | some e =>
    if chanReady && !pickCtx then
      ({ ft with v := none }, GetResult.returned (ft.v.getD default) ft.err)
    else
      (ft, GetResult.returned default (some e))
  | none =>
    if chanReady then
      ({ ft with v := none }, GetResult.returned (ft.v.getD default) ft.err)
    else
      (ft, GetResult.blocked)

/-- `Cancelled`: loads the flag. -/
def FutureTask.Cancelled {V : Type} (ft : FutureTask V) : Bool :=
  ft.cancelled

/-- `Done`: loads the flag. -/
def FutureTask.Done {V : Type} (ft : FutureTask V) : Bool :=
  ft.done

/-- `Get`: when `Cancelled()` holds, the zero value and
`FutureTaskCancelledErr`; otherwise the `select`. -/
def FutureTask.Get {V : Type} [Inhabited V] (ft : FutureTask V) (pickCtx : Bool) :
    FutureTask V × GetResult V :=
  if ft.Cancelled then
    (ft, GetResult.returned default (some GoError.FutureTaskCancelledErr))
  else
    ft.selectGet pickCtx

/-- A receive `<-ft.GetWithChan()` by a consumer: the held value, or the zero
value once the channel is closed and empty, or waiting. The result carries no
error. -/
def FutureTask.recvChan {V : Type} [Inhabited V] (ft : FutureTask V) :
    FutureTask V × GetResult V :=
  if ft.v.isSome || ft.vClosed then
    ({ ft with v := none }, GetResult.returned (ft.v.getD default) none)
  else
    (ft, GetResult.blocked)

/-- `Cancel`: the swap of `cancelled` from false to true succeeds once; then
`cancelFunc` is called and the result is `true`. Otherwise `false`. -/
def FutureTask.Cancel {V : Type} (ft : FutureTask V) : FutureTask V × Bool :=
  if ft.cancelled = false then
    ({ ft with cancelled := true, cancelFuncCalls := ft.cancelFuncCalls + 1 }, true)
  else
    (ft, false)

/-- Where the goroutine started by `FutureGo` stands: before `task(ctx)` has
come back; before `future.err = err`; before the conditional send; before the
deferred `close(future.v)`; before the `recover()` test of the deferred
function; before its `future.done.Store(true)`; after its end. The deferred
steps carry what `recover()` is going to return: the value of the panic under
way, `none` (nil) when there is no panic or when the panic hands nil to
`recover()`. In both cases `recover()` ends the panic. -/
inductive Goroutine (V : Type) where
  | callTask
  | storeErr (v : V) (err : Option GoError)
  | sendValue (v : V) (err : Option GoError)
  | deferredClose (r : Option PanicValue)
  | deferredRecover (r : Option PanicValue)
  | deferredDone
  | exited
deriving DecidableEq, Repr

/-- A future, the task it was started with, and its goroutine. -/
structure FutureRun (V : Type) where
  future : FutureTask V
  task : TaskOutcome V
  pc : Goroutine V
deriving DecidableEq, Repr

/-- `FutureGo(ctx, cancelFunc, task)`: a new future and a goroutine about to
call the task. (The call in `future_go.go` passes `cancelFunc` only; the
declaration in `future_task.go` takes the context as well, and `Get` reads
it.) -/
def FutureGo {V : Type} (ctx : Option GoError) (task : TaskOutcome V) : FutureRun V :=
  { future := newFutureTask ctx, task := task, pc := Goroutine.callTask }

/-- One step of the goroutine, statement by statement. A panic of the task
skips to the deferred calls, which run in reverse order: first
`close(future.v)`, then the function that recovers and stores `done`. The
send finds the buffer empty (it is the only send); were it full, the
goroutine would wait. -/
def FutureRun.goStep {V : Type} (s : FutureRun V) : FutureRun V :=
  match s.pc with
  | Goroutine.callTask =>
    match s.task with
    | TaskOutcome.returns v err => { s with pc := Goroutine.storeErr v err }
    | TaskOutcome.panics r => { s with pc := Goroutine.deferredClose (some r) }
    | TaskOutcome.panicsNil recovered => { s with pc := Goroutine.deferredClose recovered }
  | Goroutine.storeErr v err =>
    { s with future := { s.future with err := err }, pc := Goroutine.sendValue v err }
  | Goroutine.sendValue v err =>
    if err.isNone then
      if s.future.v.isNone then
        { s with future := { s.future with v := some v }, pc := Goroutine.deferredClose none }
      else
        s
    else
      { s with pc := Goroutine.deferredClose none }
  | Goroutine.deferredClose r =>
    { s with future := { s.future with vClosed := true }, pc := Goroutine.deferredRecover r }
  | Goroutine.deferredRecover r =>
    match r with
    | some pv =>
      { s with future := { s.future with err := some (GoError.errorsNew pv.text) },
               pc := Goroutine.deferredDone }
    | none => { s with pc := Goroutine.deferredDone }
  | Goroutine.deferredDone =>
    { s with future := { s.future with done := true }, pc := Goroutine.exited }
  | Goroutine.exited => s

/-- The goroutine takes `n` steps, nobody else touches the future. -/
def FutureRun.goSteps {V : Type} : Nat → FutureRun V → FutureRun V
  | 0, s => s
  | n + 1, s => FutureRun.goSteps n s.goStep

/-- What can happen to a running future: a step of its goroutine, a call of
`Get`, a receive from `GetWithChan()`, a call of `Cancel`, or its context
becoming done with the given error. -/
inductive FutureOp where
  | go
  | get (pickCtx : Bool)
  | recv
  | cancel
  | ctxDone (e : GoError)
deriving DecidableEq, Repr

/-- The state after one event. A context that is done stays as it is. -/
def FutureRun.applyOp {V : Type} [Inhabited V] (s : FutureRun V) : FutureOp → FutureRun V
  | FutureOp.go => s.goStep
  | FutureOp.get pickCtx => { s with future := (s.future.Get pickCtx).1 }
  | FutureOp.recv => { s with future := s.future.recvChan.1 }
  | FutureOp.cancel => { s with future := s.future.Cancel.1 }
  | FutureOp.ctxDone e =>
    match s.future.ctx with
    | none => { s with future := { s.future with ctx := some e } }
    | some _ => s

/-- The state after a list of events, in order. -/
def FutureRun.applyOps {V : Type} [Inhabited V] (s : FutureRun V) : List FutureOp → FutureRun V
  | [] => s
  | op :: ops => FutureRun.applyOps (s.applyOp op) ops

/-- A future whose channel is closed and empty, with no error stored, not
cancelled, context not done. -/
def FutureTask.drained {V : Type} (ft : FutureTask V) : Prop :=
  ft.v = none ∧ ft.vClosed = true ∧ ft.cancelled = false ∧ ft.err = none ∧ ft.ctx = none

/-! # Theorems -/

/-! ## Cyclic barrier -/

theorem awaitAll_append (b : CyclicBarrier) (xs ys : List Nat) :
    awaitAll b (xs ++ ys) = awaitAll (awaitAll b xs) ys := by
  induction xs generalizing b with
  | nil => rfl
  | cons x xs ih => simp [awaitAll, ih]

/-- An arrival that finds at least two parties left takes one off and parks
on the channel in the field. -/
theorem Await_of_two_le (b : CyclicBarrier) (p : Nat) (h : 2 ≤ b.parties) :
    Await b p =
      ({ b with parties := b.parties - 1, parked := (p, b.blockingQueue) :: b.parked },
        AwaitResult.parked b.blockingQueue) := by
  have h0 : b.parties ≠ 0 := by omega
  have h1 : b.parties ≠ 1 := by omega
  simp [Await, h0, h1]

/-- An arrival that finds zero or one party left runs the command and breaks
the barrier. -/
theorem Await_of_le_one (b : CyclicBarrier) (p : Nat) (h : b.parties ≤ 1)
    (hc : b.barrierCommand = BarrierAction.returns) :
    Await b p =
      (breakBarrier { b with commandRuns := b.commandRuns + 1 }, AwaitResult.returned) := by
  have h01 : b.parties = 0 ∨ b.parties = 1 := by omega
  rcases h01 with h0 | h1
  · simp [Await, h0, hc]
  · simp [Await, h1, hc]

/-- As long as fewer parties have arrived than the counter says, all of them
park on the same channel and nothing else changes. -/
theorem awaitAll_parks (pre : List Nat) (b : CyclicBarrier) (h : pre.length < b.parties) :
    awaitAll b pre =
      { b with parties := b.parties - pre.length,
               parked := (pre.map (fun p => (p, b.blockingQueue))).reverse ++ b.parked } := by
  induction pre generalizing b with
  | nil => simp [awaitAll]
  | cons p pre ih =>
    simp only [List.length_cons] at h
    have h2 : 2 ≤ b.parties := by omega
    simp only [awaitAll, Await_of_two_le b p h2]
    rw [ih]
    · simp [Nat.sub_sub, Nat.add_comm]
    · simp; omega

/-- The state of a fresh barrier after the arrivals `pre`, fewer than `N`. -/
theorem awaitAll_fresh (N : Nat) (a : BarrierAction) (pre : List Nat) (h : pre.length < N) :
    awaitAll (NewCyclicBarrier N a) pre =
      { parties := N - pre.length, count := N, barrierCommand := a, blockingQueue := 0,
        closed := [], parked := (pre.map (fun p => (p, 0))).reverse, commandRuns := 0 } := by
  rw [awaitAll_parks pre _ (by simpa [NewCyclicBarrier] using h)]
  simp [NewCyclicBarrier]

/-- The state of a fresh barrier after a full first cycle `pre ++ [p]`. -/
theorem awaitAll_fresh_cycle (N : Nat) (pre : List Nat) (p : Nat) (h : pre.length + 1 = N) :
    awaitAll (NewCyclicBarrier N BarrierAction.returns) (pre ++ [p]) =
      { parties := 1, count := 1, barrierCommand := BarrierAction.returns, blockingQueue := 1,
        closed := [0], parked := (pre.map (fun p => (p, 0))).reverse, commandRuns := 1 } := by
  rw [awaitAll_append, awaitAll_fresh N _ pre (by omega)]
  have h1 : N - pre.length = 1 := by omega
  simp [awaitAll, Await, h1, breakBarrier]

/-- Calls that run one after the other, none held up between its swap and its
receive. On a fresh barrier for `N >= 1` parties whose command returns, and
for any list `ps` of `N` arriving parties (any order): every arrival that is not
the last one parks on the first gate (channel 0), takes one off the counter
`parties` and does not run the command, and is still waiting afterwards; the
last arrival does not park, runs the command (for the first time) and closes
channel 0; after the `N` arrivals the command has run exactly once and no
party is left waiting. -/
theorem barrier_first_cycle (N : Nat) (hN : 1 ≤ N) (ps : List Nat) (hps : ps.length = N) :
    (∀ (pre post : List Nat) (p : Nat), ps = pre ++ p :: post → post ≠ [] →
        (Await (awaitAll (NewCyclicBarrier N BarrierAction.returns) pre) p).2
            = AwaitResult.parked 0 ∧
        (Await (awaitAll (NewCyclicBarrier N BarrierAction.returns) pre) p).1.parties + 1
            = (awaitAll (NewCyclicBarrier N BarrierAction.returns) pre).parties ∧
        (Await (awaitAll (NewCyclicBarrier N BarrierAction.returns) pre) p).1.commandRuns = 0 ∧
        (p, 0) ∈ stillParked (Await (awaitAll (NewCyclicBarrier N BarrierAction.returns) pre) p).1) ∧
    (∀ (pre : List Nat) (p : Nat), ps = pre ++ [p] →
        (awaitAll (NewCyclicBarrier N BarrierAction.returns) pre).commandRuns = 0 ∧
        (awaitAll (NewCyclicBarrier N BarrierAction.returns) pre).closed = [] ∧
        (Await (awaitAll (NewCyclicBarrier N BarrierAction.returns) pre) p).2
            = AwaitResult.returned ∧
        (Await (awaitAll (NewCyclicBarrier N BarrierAction.returns) pre) p).1.commandRuns = 1 ∧
        (Await (awaitAll (NewCyclicBarrier N BarrierAction.returns) pre) p).1.closed = [0]) ∧
    ((awaitAll (NewCyclicBarrier N BarrierAction.returns) ps).commandRuns = 1 ∧
      (awaitAll (NewCyclicBarrier N BarrierAction.returns) ps).parked.length = N - 1 ∧
      stillParked (awaitAll (NewCyclicBarrier N BarrierAction.returns) ps) = []) := by
  refine ⟨?_, ?_, ?_⟩
  · intro pre post p hsplit hpost
    have hlen : pre.length + 1 + post.length = N := by
      rw [← hps, hsplit]; simp; omega
    have hpl : 0 < post.length := List.length_pos.mpr hpost
    rw [awaitAll_fresh N _ pre (by omega)]
    rw [Await_of_two_le _ p (by simp; omega)]
    refine ⟨rfl, ?_, rfl, ?_⟩
    · simp; omega
    · simp [stillParked]
  · intro pre p hsplit
    have hlen : pre.length + 1 = N := by
      rw [← hps, hsplit]; simp
    rw [awaitAll_fresh N _ pre (by omega)]
    rw [Await_of_le_one _ p (by simp; omega) rfl]
    simp [breakBarrier]
  · obtain ⟨pre, p, hsplit⟩ : ∃ pre p, ps = pre ++ [p] := by
      have hne : ps ≠ [] := by
        intro h0; rw [h0] at hps; simp at hps; omega
      exact ⟨ps.dropLast, ps.getLast hne, (List.dropLast_append_getLast hne).symm⟩
    have hlen : pre.length + 1 = N := by
      rw [← hps, hsplit]; simp
    rw [hsplit, awaitAll_fresh_cycle N pre p hlen]
    refine ⟨rfl, ?_, ?_⟩
    · simp; omega
    · simp [stillParked]

/-- Witness for `barrier_first_cycle`: three parties, arriving as 7, 8, 9. -/
theorem barrier_first_cycle_witness :
    (awaitAll (NewCyclicBarrier 3 BarrierAction.returns) [7, 8, 9]).commandRuns = 1 ∧
    stillParked (awaitAll (NewCyclicBarrier 3 BarrierAction.returns) [7, 8, 9]) = [] :=
  ⟨(barrier_first_cycle 3 (by decide) [7, 8, 9] rfl).2.2.1,
   (barrier_first_cycle 3 (by decide) [7, 8, 9] rfl).2.2.2.2⟩

/-- Once the counter `parties` stands at 0 or 1 it stays there: every further
arrival runs the command and none parks. -/
theorem awaitAll_after_trip (qs : List Nat) (b : CyclicBarrier) (h : b.parties ≤ 1)
    (hc : b.barrierCommand = BarrierAction.returns) :
    (awaitAll b qs).commandRuns = b.commandRuns + qs.length ∧
    (awaitAll b qs).parked = b.parked ∧
    (awaitAll b qs).parties = b.parties := by
  induction qs generalizing b with
  | nil => simp [awaitAll]
  | cons q qs ih =>
    rw [awaitAll, Await_of_le_one b q h hc]
    obtain ⟨h1, h2, h3⟩ := ih (breakBarrier { b with commandRuns := b.commandRuns + 1 })
      (by simpa [breakBarrier] using h) (by simpa [breakBarrier] using hc)
    refine ⟨?_, ?_, ?_⟩
    · rw [h1]; simp [breakBarrier]; omega
    · rw [h2]; simp [breakBarrier]
    · rw [h3]; simp [breakBarrier]

/-- C1. A barrier for three parties after its first cycle: the counter
`parties` stands at 1 (and so does `count`), not at 3; in the second cycle
the first arrival already runs the command and does not wait, and so do the
second and the third: the command runs three times in the second cycle and
nobody waits on the gate. -/
theorem barrier_second_cycle_runs_command_each_arrival :
    (awaitAll (NewCyclicBarrier 3 BarrierAction.returns) [0, 1, 2]).commandRuns = 1 ∧
    stillParked (awaitAll (NewCyclicBarrier 3 BarrierAction.returns) [0, 1, 2]) = [] ∧
    (awaitAll (NewCyclicBarrier 3 BarrierAction.returns) [0, 1, 2]).parties = 1 ∧
    (awaitAll (NewCyclicBarrier 3 BarrierAction.returns) [0, 1, 2]).count = 1 ∧
    (Await (awaitAll (NewCyclicBarrier 3 BarrierAction.returns) [0, 1, 2]) 3).2
        = AwaitResult.returned ∧
    (Await (awaitAll (NewCyclicBarrier 3 BarrierAction.returns) [0, 1, 2]) 3).1.commandRuns = 2 ∧
    (Await (awaitAll (NewCyclicBarrier 3 BarrierAction.returns) [0, 1, 2, 3]) 4).2
        = AwaitResult.returned ∧
    (awaitAll (NewCyclicBarrier 3 BarrierAction.returns) [0, 1, 2, 3, 4, 5]).commandRuns = 4 ∧
    (awaitAll (NewCyclicBarrier 3 BarrierAction.returns) [0, 1, 2, 3, 4, 5]).parked.length = 2 := by
  decide

/-- C10. A barrier for three parties with one party waiting: `Reset` releases
that party and the command is not run; but the counter `parties` stays at 2
(`count` is set to 2, not 3), so of the next three arrivals the first waits,
the second already runs the command and releases it, and the third runs the
command again without waiting. -/
theorem barrier_reset_then_cycle_trips_early :
    stillParked (awaitAll (NewCyclicBarrier 3 BarrierAction.returns) [0]) = [(0, 0)] ∧
    stillParked (Reset (awaitAll (NewCyclicBarrier 3 BarrierAction.returns) [0])) = [] ∧
    (Reset (awaitAll (NewCyclicBarrier 3 BarrierAction.returns) [0])).commandRuns = 0 ∧
    (Reset (awaitAll (NewCyclicBarrier 3 BarrierAction.returns) [0])).parties = 2 ∧
    (Reset (awaitAll (NewCyclicBarrier 3 BarrierAction.returns) [0])).count = 2 ∧
    (Await (Reset (awaitAll (NewCyclicBarrier 3 BarrierAction.returns) [0])) 1).2
        = AwaitResult.parked 1 ∧
    (Await (awaitAll (Reset (awaitAll (NewCyclicBarrier 3 BarrierAction.returns) [0])) [1]) 2).2
        = AwaitResult.returned ∧
    (Await (awaitAll (Reset (awaitAll (NewCyclicBarrier 3 BarrierAction.returns) [0])) [1, 2]) 3).2
        = AwaitResult.returned ∧
    (awaitAll (Reset (awaitAll (NewCyclicBarrier 3 BarrierAction.returns) [0])) [1, 2, 3]).commandRuns
        = 2 := by
  decide

/-! ## Countdown latch -/

/-- A call of `CountDown` on an open latch whose count is below `max`: the
count goes up by one, nothing panics, and the channel is closed exactly when
the new count is `max`. -/
theorem CountDown_below (c : CountDownLatch) (hlt : c.count < c.max) (hmax : c.max < 2 ^ 32)
    (hopen : c.closed = false) :
    CountDown c = ({ c with count := c.count + 1, closed := decide (c.count + 1 = c.max) }, none) := by
  have hmod : (c.count + 1) % 2 ^ 32 = c.count + 1 := Nat.mod_eq_of_lt (by omega)
  unfold CountDown
  simp only [hmod]
  have hgt : ¬ (c.count + 1 > c.max) := by omega
  by_cases heq : c.count + 1 = c.max
  · simp [heq, hopen]
  · simp [hgt, heq, hopen]

/-- A run of `k` calls that stays within `max`: the count goes up by `k`,
nothing panics, and the channel is closed exactly when the run was not empty
and ended on `max`. -/
theorem countDowns_within (k : Nat) (c : CountDownLatch) (hle : c.count + k ≤ c.max)
    (hmax : c.max < 2 ^ 32) (hopen : c.closed = false) :
    countDowns k c =
      ({ c with count := c.count + k, closed := decide (0 < k ∧ c.count + k = c.max) }, none) := by
  induction k generalizing c with
  | zero =>
    cases c
    simp_all [countDowns]
  | succ k ih =>
    rw [countDowns, CountDown_below c (by omega) hmax hopen]
    simp only
    by_cases hk : k = 0
    · subst hk
      simp [countDowns]
    · have hne : ¬ (c.count + 1 = c.max) := by omega
      rw [ih _ (by simp; omega) (by simpa using hmax) (by simp [hne])]
      have hpos : 0 < k := Nat.pos_of_ne_zero hk
      simp [Nat.add_assoc, Nat.add_comm 1 k, hpos]

/-- The state of a new latch for `N` after `k <= N` calls of `CountDown`. -/
theorem countDowns_new (N k : Nat) (hk : k ≤ N) (hN : N < 2 ^ 32) :
    countDowns k (NewCountDownLatch N) =
      ({ count := k, max := N, closed := decide (0 < k ∧ k = N) }, none) := by
  rw [countDowns_within k _ (by simpa [NewCountDownLatch] using hk)
    (by simpa [NewCountDownLatch] using hN) rfl]
  simp [NewCountDownLatch]

/-- A closed channel stays closed: no call of `CountDown` opens it again. -/
theorem CountDown_keeps_closed (c : CountDownLatch) (h : c.closed = true) :
    (CountDown c).1.closed = true := by
  unfold CountDown
  simp only
  split
  · exact h
  · split
    · simp [h]
    · exact h

theorem countDowns_keeps_closed (m : Nat) (c : CountDownLatch) (h : c.closed = true) :
    (countDowns m c).1.closed = true := by
  induction m generalizing c with
  | zero => exact h
  | succ m ih =>
    have hstep := CountDown_keeps_closed c h
    rw [countDowns]
    rcases hcd : CountDown c with ⟨c1, r⟩
    rw [hcd] at hstep
    cases r with
    | none => exact ih c1 hstep
    | some msg => exact hstep

/-- C5. For a latch made for `N` with `1 <= N < 2^32`: after any `k < N`
calls of `CountDown` nothing has panicked and the channel is not closed, so
`Await` waits; after exactly `N` calls nothing has panicked and the channel is
closed, so `Await` returns, and it stays closed whatever calls follow; and
among the first `N` calls the one that leaves the channel closed is the one
whose new count is `N`, and no other. -/
theorem latch_opens_at_target (N : Nat) (hN : 1 ≤ N) (hN32 : N < 2 ^ 32) :
    (∀ k, k < N →
        (countDowns k (NewCountDownLatch N)).2 = none ∧
        (countDowns k (NewCountDownLatch N)).1.awaitReturns = false) ∧
    ((countDowns N (NewCountDownLatch N)).2 = none ∧
      (countDowns N (NewCountDownLatch N)).1.awaitReturns = true) ∧
    (∀ m, (countDowns m (countDowns N (NewCountDownLatch N)).1).1.awaitReturns = true) ∧
    (∀ k, k < N →
        (CountDown (countDowns k (NewCountDownLatch N)).1).2 = none ∧
        (CountDown (countDowns k (NewCountDownLatch N)).1).1.count = k + 1 ∧
        ((CountDown (countDowns k (NewCountDownLatch N)).1).1.closed = true ↔ k + 1 = N)) := by
  refine ⟨?_, ?_, ?_, ?_⟩
  · intro k hk
    rw [countDowns_new N k (by omega) hN32]
    have hne : ¬ (k = N) := by omega
    simp [CountDownLatch.awaitReturns, hne]
  · rw [countDowns_new N N (le_refl N) hN32]
    have hpos : 0 < N := by omega
    simp [CountDownLatch.awaitReturns, hpos]
  · intro m
    apply countDowns_keeps_closed
    rw [countDowns_new N N (le_refl N) hN32]
    have hpos : 0 < N := by omega
    simp [hpos]
  · intro k hk
    rw [countDowns_new N k (by omega) hN32]
    have hne : ¬ (k = N) := by omega
    rw [CountDown_below _ (by simpa using hk) (by simpa using hN32) (by simp [hne])]
    simp

/-- Witness for `latch_opens_at_target`: the latch of the test, for three. -/
theorem latch_opens_at_target_witness :
    (countDowns 3 (NewCountDownLatch 3)).2 = none ∧
    (countDowns 3 (NewCountDownLatch 3)).1.awaitReturns = true :=
  (latch_opens_at_target 3 (by decide) (by decide)).2.1

/-- C6, as stated, fails for the largest target: after `2^32 - 1` calls on a
latch made for `2^32 - 1` (none of which panics) the count stands at
`2^32 - 1`, the next increment wraps to 0, and the call returns without a
panic. -/
theorem latch_overcount_wraps :
    (countDowns 4294967295 (NewCountDownLatch 4294967295)).2 = none ∧
    (CountDown (countDowns 4294967295 (NewCountDownLatch 4294967295)).1).2 = none ∧
    (CountDown (countDowns 4294967295 (NewCountDownLatch 4294967295)).1).1.count = 0 := by
  rw [countDowns_new 4294967295 4294967295 (le_refl _) (by norm_num)]
  simp [CountDown]

/-- C6, amended. For a latch made for `N` with `N < 2^32 - 1`: the first `N`
calls of `CountDown` do not panic, and one more call panics with the text
"too many calls to CountDown". -/
theorem latch_overcount_panics (N : Nat) (hN : N < 2 ^ 32 - 1) :
    (countDowns N (NewCountDownLatch N)).2 = none ∧
    (CountDown (countDowns N (NewCountDownLatch N)).1).2 = some "too many calls to CountDown" := by
  rw [countDowns_new N N (le_refl N) (by omega)]
  have hmod : (N + 1) % 2 ^ 32 = N + 1 := Nat.mod_eq_of_lt (by omega)
  refine ⟨rfl, ?_⟩
  unfold CountDown
  simp only [hmod]
  simp [tooManyCalls]

/-- Witness for `latch_overcount_panics`: the latch of the test, for three. -/
theorem latch_overcount_panics_witness :
    (CountDown (countDowns 3 (NewCountDownLatch 3)).1).2 = some "too many calls to CountDown" :=
  (latch_overcount_panics 3 (by norm_num)).2

/-! ## Semaphore -/

theorem wrapInt32_of_range (x : Int) (hlo : -2 ^ 31 ≤ x) (hhi : x < 2 ^ 31) :
    wrapInt32 x = x := by
  unfold wrapInt32
  omega

theorem wrapInt32_pred (x : Int) : wrapInt32 (wrapInt32 x - 1) = wrapInt32 (x - 1) := by
  unfold wrapInt32
  omega

/-- A failed `TryAcquire` (count at most 0, above the least `int32`) returns
`false` and leaves the count one lower than it found it. -/
theorem TryAcquire_of_nonpos (s : Semaphore) (h : s.permits ≤ 0) (hlo : -2 ^ 31 < s.permits) :
    s.TryAcquire = ({ s with permits := s.permits - 1 }, CallResult.returned false) := by
  have hw : wrapInt32 (s.permits - 1) = s.permits - 1 :=
    wrapInt32_of_range _ (by omega) (by omega)
  have hneg : s.permits - 1 < 0 := by omega
  simp [Semaphore.TryAcquire, Semaphore.acquire, hw, hneg]

/-- An `Acquire` that finds `j` permits, `0 < j <= 2^31`, returns at once and
leaves `j - 1`. -/
theorem Acquire_of_pos (s : Semaphore) (j : Nat) (hj : 0 < j) (hj31 : j ≤ 2 ^ 31)
    (hp : s.permits = wrapInt32 (j : Int)) :
    s.Acquire = ({ s with permits := wrapInt32 ((j : Int) - 1) }, CallResult.returned true) := by
  have hnew : wrapInt32 (s.permits - 1) = wrapInt32 ((j : Int) - 1) := by
    rw [hp, wrapInt32_pred]
  have hval : wrapInt32 ((j : Int) - 1) = (j : Int) - 1 :=
    wrapInt32_of_range _ (by omega) (by omega)
  have hcur : s.permits ≠ 0 := by
    rw [hp]; unfold wrapInt32; omega
  have hnn : ¬ ((j : Int) - 1 < 0) := by omega
  simp [Semaphore.Acquire, Semaphore.acquire, hnew, hval, hcur, hnn]

/-- A run of `k <= j` calls of `Acquire` from `j <= 2^31` permits. -/
theorem acquires_of_pos (k j : Nat) (s : Semaphore) (hk : k ≤ j) (hj31 : j ≤ 2 ^ 31)
    (hp : s.permits = wrapInt32 (j : Int)) :
    acquires k s = { s with permits := wrapInt32 ((j : Int) - k) } := by
  induction k generalizing j s with
  | zero =>
    cases s
    simp_all [acquires]
  | succ k ih =>
    have hj : 0 < j := by omega
    rw [acquires, Acquire_of_pos s j hj hj31 hp]
    obtain ⟨i, rfl⟩ : ∃ i, j = i + 1 := ⟨j - 1, by omega⟩
    rw [ih i _ (by omega) (by omega) (by simp)]
    simp

/-- An `Acquire` that finds the count at `-r`, with nobody waiting to send,
takes the count to `-(r + 1)` and waits on the channel. -/
theorem Acquire_of_nonpos (s : Semaphore) (r : Nat) (hr : r < 2 ^ 31)
    (hp : s.permits = -(r : Int)) (hs : s.senders = 0) :
    s.Acquire =
      ({ s with permits := -((r : Int) + 1), receivers := s.receivers + 1 },
        CallResult.blocked) := by
  have hw : wrapInt32 (s.permits - 1) = -((r : Int) + 1) := by
    rw [hp, wrapInt32_of_range _ (by omega) (by omega)]; omega
  have hneg : -((r : Int) + 1) < 0 := by omega
  simp [Semaphore.Acquire, Semaphore.acquire, hw, hneg, hs]
  omega

/-- A run of `m` calls of `Acquire` from a count of `-r`: all of them wait. -/
theorem acquires_of_nonpos (m r : Nat) (s : Semaphore) (hr : r + m ≤ 2 ^ 31)
    (hp : s.permits = -(r : Int)) (hs : s.senders = 0) :
    acquires m s =
      { s with permits := -((r : Int) + m), receivers := s.receivers + m } := by
  induction m generalizing r s with
  | zero =>
    cases s
    simp_all [acquires]
  | succ m ih =>
    rw [acquires, Acquire_of_nonpos s r (by omega) hp hs]
    rw [ih (r + 1) _ (by omega) (by simp) (by simpa using hs)]
    simp
    constructor <;> omega

theorem acquires_add (a b : Nat) (s : Semaphore) :
    acquires (a + b) s = acquires b (acquires a s) := by
  induction a generalizing s with
  | zero => simp [acquires]
  | succ a ih =>
    rw [Nat.succ_add, acquires, acquires, ih]

/-- The state of `NewSemaphore(P)`, `P <= 2^31`, after `P + w` calls of
`Acquire`, `w <= 2^31`: the count is `-w` and `w` callers wait. -/
theorem acquires_new (P w : Nat) (hP : P ≤ 2 ^ 31) (hw : w ≤ 2 ^ 31) :
    acquires (P + w) (NewSemaphore P) =
      { permits := -(w : Int), receivers := w, senders := 0 } := by
  have hnew : (NewSemaphore P).permits = wrapInt32 (P : Int) := by
    simp only [NewSemaphore]
  rw [acquires_add, acquires_of_pos P P _ (le_refl P) hP hnew]
  have h0 : wrapInt32 ((P : Int) - (P : Int)) = -((0 : Nat) : Int) := by
    unfold wrapInt32
    omega
  rw [acquires_of_nonpos w 0 _ (by omega) h0 rfl]
  simp [NewSemaphore]

/-- A `Release` that finds the count at `-(r + 1)` and a caller waiting to
receive hands over to one of them and returns. -/
theorem Release_of_neg (s : Semaphore) (r : Nat) (hr : r < 2 ^ 31)
    (hp : s.permits = -((r : Int) + 1)) (hrecv : 0 < s.receivers) :
    s.Release =
      ({ s with permits := -(r : Int), receivers := s.receivers - 1 },
        CallResult.returned true) := by
  have hw : wrapInt32 (s.permits + 1) = -(r : Int) := by
    rw [hp, wrapInt32_of_range _ (by omega) (by omega)]; omega
  have hle : -(r : Int) ≤ 0 := by omega
  simp [Semaphore.Release, hw, hle, hrecv]

/-- A run of `j` calls of `Release` while `j` callers or more are owed. -/
theorem releases_of_neg (j r : Nat) (s : Semaphore) (hj : j ≤ r) (hr : r ≤ 2 ^ 31)
    (hp : s.permits = -(r : Int)) (hrecv : r ≤ s.receivers) :
    releases j s =
      { s with permits := -((r : Int) - j), receivers := s.receivers - j } := by
  induction j generalizing r s with
  | zero =>
    cases s
    simp_all [releases]
  | succ j ih =>
    obtain ⟨i, rfl⟩ : ∃ i, r = i + 1 := ⟨r - 1, by omega⟩
    rw [releases, Release_of_neg s i (by omega) (by rw [hp]; push_cast; ring) (by omega)]
    rw [ih i _ (by omega) (by omega) (by simp) (by simp; omega)]
    simp
    omega

/-- C2. `TryAcquire` on a semaphore without permits returns `false` but leaves
the count one lower: on `NewSemaphore(0)` the count goes from 0 to -1; in the
run of the test (`NewSemaphore(3)`, two `Acquire`, a `TryAcquire` that
succeeds) the failing `TryAcquire` finds 0 and leaves -1. No caller waits,
yet the next `Release` finds a count that is not positive after its
increment and waits to send a wake signal that nobody receives. -/
theorem tryAcquire_failure_keeps_decrement :
    (NewSemaphore 0).permits = 0 ∧
    (NewSemaphore 0).TryAcquire
      = ({ permits := -1, receivers := 0, senders := 0 }, CallResult.returned false) ∧
    (acquires 2 (NewSemaphore 3)).TryAcquire.2 = CallResult.returned true ∧
    (acquires 2 (NewSemaphore 3)).TryAcquire.1.permits = 0 ∧
    (acquires 2 (NewSemaphore 3)).TryAcquire.1.TryAcquire
      = ({ permits := -1, receivers := 0, senders := 0 }, CallResult.returned false) ∧
    (NewSemaphore 0).TryAcquire.1.Release
      = ({ permits := 0, receivers := 0, senders := 1 }, CallResult.blocked) := by
  decide

/-- C4, as stated, fails for a permit count above `2^31`: `int32(permits)`
turns 2147483649 into -2147483647, and the first `Acquire` already waits. -/
theorem semaphore_large_count_blocks_first_acquire :
    (NewSemaphore 2147483649).permits = -2147483647 ∧
    (NewSemaphore 2147483649).Acquire.2 = CallResult.blocked := by
  decide

/-- C4, amended. For `NewSemaphore(P)` with `P <= 2^31` and no `Release` in
between: each of the first `P` calls of `Acquire` returns `true` at once and
nobody waits; the next call waits on the channel. No call of `Acquire` or
`TryAcquire`, in any state, takes a waiting caller off the channel (only the
send in `Release` does). And with `w <= 2^31` callers waiting (after `P + w`
calls of `Acquire`), each of the next `w` calls of `Release` returns and
leaves exactly one caller fewer waiting. -/
theorem semaphore_bounded (P : Nat) (hP : P ≤ 2 ^ 31) :
    (∀ k, k < P →
        (acquires k (NewSemaphore P)).Acquire.2 = CallResult.returned true ∧
        (acquires k (NewSemaphore P)).Acquire.1.receivers = 0) ∧
    ((acquires P (NewSemaphore P)).Acquire.2 = CallResult.blocked ∧
      (acquires P (NewSemaphore P)).Acquire.1.receivers = 1) ∧
    (∀ (s : Semaphore) (blocking : Bool), s.receivers ≤ (s.acquire blocking).1.receivers) ∧
    (∀ w j, w ≤ 2 ^ 31 → j < w →
        (releases j (acquires (P + w) (NewSemaphore P))).receivers = w - j ∧
        (releases j (acquires (P + w) (NewSemaphore P))).Release.2 = CallResult.returned true ∧
        (releases j (acquires (P + w) (NewSemaphore P))).Release.1.receivers + 1 = w - j) := by
  have hnew : (NewSemaphore P).permits = wrapInt32 (P : Int) := by
    simp only [NewSemaphore]
  refine ⟨?_, ?_, ?_, ?_⟩
  · intro k hk
    rw [acquires_of_pos k P _ (by omega) hP hnew]
    have hcast : ((P - k : Nat) : Int) = (P : Int) - (k : Int) := by omega
    have hcur : ({ NewSemaphore P with permits := wrapInt32 ((P : Int) - (k : Int)) } : Semaphore).permits
        = wrapInt32 ((P - k : Nat) : Int) := by
      rw [hcast]
    rw [Acquire_of_pos _ (P - k) (by omega) (by omega) hcur]
    exact ⟨rfl, rfl⟩
  · have h := acquires_new P 0 hP (by omega)
    simp only [Nat.add_zero] at h
    rw [h, Acquire_of_nonpos _ 0 (by norm_num) (by simp) rfl]
    simp
  · intro s blocking
    unfold Semaphore.acquire
    simp only
    split
    · split
      · exact le_refl _
      · split
        · exact le_refl _
        · exact Nat.le_succ _
    · exact le_refl _
  · intro w j hw hj
    rw [acquires_new P w hP hw]
    rw [releases_of_neg j w _ (by omega) hw rfl (le_refl _)]
    obtain ⟨i, hi⟩ : ∃ i, w - j = i + 1 := ⟨w - j - 1, by omega⟩
    rw [Release_of_neg _ i (by omega) (by simp; omega) (by simp; omega)]
    simp
    omega

/-- Witness for `semaphore_bounded`: the semaphore of the test, three
permits; the fourth `Acquire` waits. -/
theorem semaphore_bounded_witness :
    (acquires 3 (NewSemaphore 3)).Acquire.2 = CallResult.blocked ∧
    (acquires 3 (NewSemaphore 3)).Acquire.1.receivers = 1 :=
  (semaphore_bounded 3 (by norm_num)).2.1

/-! ## Future -/

theorem goSteps_add {V : Type} (a b : Nat) (s : FutureRun V) :
    FutureRun.goSteps (a + b) s = FutureRun.goSteps b (FutureRun.goSteps a s) := by
  induction a generalizing s with
  | zero => simp [FutureRun.goSteps]
  | succ a ih => rw [Nat.succ_add, FutureRun.goSteps, FutureRun.goSteps, ih]

/-- A goroutine that has ended takes no further step. -/
theorem goSteps_exited {V : Type} (n : Nat) (s : FutureRun V) (h : s.pc = Goroutine.exited) :
    FutureRun.goSteps n s = s := by
  induction n with
  | zero => rfl
  | succ n ih =>
    have hstep : s.goStep = s := by
      unfold FutureRun.goStep
      rw [h]
    rw [FutureRun.goSteps, hstep, ih]

/-- The run of a task that returns `(v, nil)`, context not done, nobody
else touching the future: after six steps the goroutine has ended, the value
is in the channel, the channel is closed and `done` is set. -/
theorem goSteps_value {V : Type} (v : V) :
    FutureRun.goSteps 6 (FutureGo none (TaskOutcome.returns v none)) =
      { future := { v := some v, vClosed := true, cancelled := false, done := true,
                    err := none, ctx := none, cancelFuncCalls := 0 },
        task := TaskOutcome.returns v none,
        pc := Goroutine.exited } := by
  simp [FutureRun.goSteps, FutureRun.goStep, FutureGo, newFutureTask]

/-- C7. A task that returns `(v, nil)`, future not cancelled, context not
done: `Done()` is false as long as the goroutine has not stored the flag
(before the task has come back, and during the five steps that follow), and
once the goroutine has ended `Done()` is true and `Get()` does not wait and
returns `(v, nil)`. -/
theorem future_value_done_then_get {V : Type} [Inhabited V] (v : V) (pickCtx : Bool) :
    (∀ n, n < 6 →
        (FutureRun.goSteps n (FutureGo none (TaskOutcome.returns v none))).future.Done = false ∧
        (FutureRun.goSteps n (FutureGo none (TaskOutcome.returns v none))).pc
          ≠ Goroutine.exited) ∧
    (∀ n, 6 ≤ n →
        (FutureRun.goSteps n (FutureGo none (TaskOutcome.returns v none))).pc
          = Goroutine.exited ∧
        (FutureRun.goSteps n (FutureGo none (TaskOutcome.returns v none))).future.Done = true ∧
        ((FutureRun.goSteps n (FutureGo none (TaskOutcome.returns v none))).future.Get pickCtx).2
          = GetResult.returned v none) := by
  constructor
  · intro n hn
    interval_cases n <;>
      simp [FutureRun.goSteps, FutureRun.goStep, FutureGo, newFutureTask, FutureTask.Done]
  · intro n hn
    obtain ⟨m, rfl⟩ : ∃ m, n = 6 + m := ⟨n - 6, by omega⟩
    rw [goSteps_add, goSteps_value, goSteps_exited m _ rfl]
    simp [FutureTask.Done, FutureTask.Get, FutureTask.Cancelled, FutureTask.selectGet]

/-- Witness for `future_value_done_then_get`: the task of the test, which
returns "test". -/
theorem future_value_done_then_get_witness :
    ((FutureRun.goSteps 6 (FutureGo none (TaskOutcome.returns "test" none))).future.Get false).2
      = GetResult.returned "test" none :=
  ((future_value_done_then_get "test" false).2 6 (le_refl 6)).2.2

/-- Nothing that happens to a future clears the flag `cancelled`. -/
theorem applyOp_keeps_cancelled {V : Type} [Inhabited V] (s : FutureRun V) (op : FutureOp)
    (h : s.future.cancelled = true) : (s.applyOp op).future.cancelled = true := by
  cases op with
  | go =>
    simp only [FutureRun.applyOp, FutureRun.goStep]
    split
    · split <;> exact h
    · exact h
    · split
      · split
        · exact h
        · exact h
      · exact h
    · exact h
    · split <;> exact h
    · exact h
    · exact h
  | get pickCtx => simp [FutureRun.applyOp, FutureTask.Get, FutureTask.Cancelled, h]
  | recv =>
    simp only [FutureRun.applyOp, FutureTask.recvChan]
    split <;> exact h
  | cancel => simp [FutureRun.applyOp, FutureTask.Cancel, h]
  | ctxDone e =>
    simp only [FutureRun.applyOp]
    split <;> exact h

theorem applyOps_keeps_cancelled {V : Type} [Inhabited V] (s : FutureRun V) (ops : List FutureOp)
    (h : s.future.cancelled = true) : (s.applyOps ops).future.cancelled = true := by
  induction ops generalizing s with
  | nil => exact h
  | cons op ops ih => exact ih _ (applyOp_keeps_cancelled s op h)

/-- C8. In any state of a future and its goroutine (task running or ended,
any value in the channel, any error stored, context done or not): when a call
of `Cancel` succeeds, `Cancelled()` is true after it, and after any further
events (steps of the goroutine, calls of `Get` and `Cancel`, receives from
the channel, the context becoming done) every `Get()` returns the zero value
of `V` with `FutureTaskCancelledErr` and leaves the future as it is. -/
theorem get_after_cancel_reports_cancelled {V : Type} [Inhabited V] (s : FutureRun V)
    (hc : s.future.Cancel.2 = true) (ops : List FutureOp) (pickCtx : Bool) :
    s.future.Cancel.1.Cancelled = true ∧
    (((s.applyOp FutureOp.cancel).applyOps ops).future.Get pickCtx)
      = (((s.applyOp FutureOp.cancel).applyOps ops).future,
          GetResult.returned default (some GoError.FutureTaskCancelledErr)) := by
  have hflag : s.future.Cancel.1.cancelled = true := by
    unfold FutureTask.Cancel at hc ⊢
    split
    · rfl
    · rename_i hne
      rw [if_neg hne] at hc
      simp at hc
  refine ⟨hflag, ?_⟩
  have hafter : ((s.applyOp FutureOp.cancel).applyOps ops).future.cancelled = true :=
    applyOps_keeps_cancelled _ ops hflag
  simp [FutureTask.Get, FutureTask.Cancelled, hafter]

/-- Witness for `get_after_cancel_reports_cancelled`: the task has ended and
left the value 5 in the channel; then `Cancel`, then `Get`. -/
theorem get_after_cancel_reports_cancelled_witness :
    (((FutureRun.goSteps 6 (FutureGo none (TaskOutcome.returns 5 none))).applyOp
        FutureOp.cancel).future.Get false).2
      = GetResult.returned 0 (some GoError.FutureTaskCancelledErr) :=
  congrArg Prod.snd
    (get_after_cancel_reports_cancelled
      (FutureRun.goSteps 6 (FutureGo none (TaskOutcome.returns 5 none))) (by decide) [] false).2

theorem drained_Get {V : Type} [Inhabited V] (ft : FutureTask V) (h : ft.drained)
    (pickCtx : Bool) :
    (ft.Get pickCtx).2 = GetResult.returned default none ∧ (ft.Get pickCtx).1.drained := by
  obtain ⟨hv, hcl, hca, herr, hctx⟩ := h
  simp [FutureTask.Get, FutureTask.Cancelled, FutureTask.selectGet, FutureTask.drained,
    hv, hcl, hca, herr, hctx]

theorem drained_recvChan {V : Type} [Inhabited V] (ft : FutureTask V) (h : ft.drained) :
    ft.recvChan.1.drained := by
  obtain ⟨hv, hcl, hca, herr, hctx⟩ := h
  simp [FutureTask.recvChan, FutureTask.drained, hv, hcl, hca, herr, hctx]

/-- Calls of `Get` and receives from the channel keep a drained future
drained. -/
theorem drained_applyOps {V : Type} [Inhabited V] (s : FutureRun V) (ops : List FutureOp)
    (hops : ∀ op ∈ ops, op = FutureOp.recv ∨ ∃ b, op = FutureOp.get b)
    (h : s.future.drained) : (s.applyOps ops).future.drained := by
  induction ops generalizing s with
  | nil => exact h
  | cons op ops ih =>
    apply ih
    · intro o ho
      exact hops o (List.mem_cons_of_mem _ ho)
    · rcases hops op (List.mem_cons_self _ _) with hr | ⟨b, hg⟩
      · subst hr
        exact drained_recvChan _ h
      · subst hg
        exact (drained_Get _ h b).2

/-- C9, as stated, fails: a task has ended with the value 5 and no error
(future not cancelled, context not done); the first `Get()` returns `(5, nil)`
and takes the value out of the channel, and the second `Get()` returns
`(0, nil)`, the zero value, not `(5, nil)`; so does a `Get()` that follows a
receive from `GetWithChan()`. -/
theorem get_second_call_returns_zero_value :
    ((FutureRun.goSteps 6 (FutureGo none (TaskOutcome.returns 5 none))).future.Get false).2
      = GetResult.returned 5 none ∧
    (((FutureRun.goSteps 6 (FutureGo none (TaskOutcome.returns 5 none))).future.Get false).1.Get
        false).2 = GetResult.returned 0 none ∧
    (((FutureRun.goSteps 6 (FutureGo none (TaskOutcome.returns 5 none))).future.Get false).1.Get
        false).2 ≠ GetResult.returned 5 none ∧
    ((FutureRun.goSteps 6 (FutureGo none (TaskOutcome.returns 5 none))).future.recvChan.1.Get
        false).2 ≠ GetResult.returned 5 none := by
  decide

/-- C9, amended. A task has ended with a value `v` and no error (future not
cancelled, context not done). The first receive gets the value at once: a
call of `Get()` returns `(v, nil)`, a receive from `GetWithChan()` gives `v`.
After one or more calls of `Get()` or receives from the channel, in any
order, every `Get()` returns at once with the zero value of `V` and a nil
error. -/
theorem get_delivers_value_once {V : Type} [Inhabited V] (v : V) (pickCtx : Bool) :
    ((FutureRun.goSteps 6 (FutureGo none (TaskOutcome.returns v none))).future.Get pickCtx).2
      = GetResult.returned v none ∧
    ((FutureRun.goSteps 6 (FutureGo none (TaskOutcome.returns v none))).future.recvChan).2
      = GetResult.returned v none ∧
    (∀ ops : List FutureOp, ops ≠ [] →
      (∀ op ∈ ops, op = FutureOp.recv ∨ ∃ b, op = FutureOp.get b) →
      (((FutureRun.goSteps 6 (FutureGo none (TaskOutcome.returns v none))).applyOps
          ops).future.Get pickCtx).2 = GetResult.returned default none) := by
  rw [goSteps_value]
  refine ⟨?_, ?_, ?_⟩
  · simp [FutureTask.Get, FutureTask.Cancelled, FutureTask.selectGet]
  · simp [FutureTask.recvChan]
  · intro ops hne hops
    cases ops with
    | nil => exact absurd rfl hne
    | cons op ops =>
      have hfirst : (FutureRun.applyOp
          ({ future := { v := some v, vClosed := true, cancelled := false, done := true,
                         err := none, ctx := none, cancelFuncCalls := 0 },
             task := TaskOutcome.returns v none,
             pc := Goroutine.exited } : FutureRun V) op).future.drained := by
        rcases hops op (List.mem_cons_self _ _) with hr | ⟨b, hg⟩
        · subst hr
          simp [FutureRun.applyOp, FutureTask.recvChan, FutureTask.drained]
        · subst hg
          simp [FutureRun.applyOp, FutureTask.Get, FutureTask.Cancelled,
            FutureTask.selectGet, FutureTask.drained]
      have hrest := drained_applyOps _ ops
        (fun o ho => hops o (List.mem_cons_of_mem _ ho)) hfirst
      exact (drained_Get _ hrest pickCtx).1

/-- Witness for `get_delivers_value_once`: the value 5, a `Get()`, a receive,
and then the `Get()` that returns the zero value. -/
theorem get_delivers_value_once_witness :
    (((FutureRun.goSteps 6 (FutureGo none (TaskOutcome.returns 5 none))).applyOps
        [FutureOp.get false, FutureOp.recv]).future.Get false).2
      = GetResult.returned 0 none :=
  (get_delivers_value_once 5 false).2.2 [FutureOp.get false, FutureOp.recv] (by decide)
    (by decide)

/-! ## Cyclic barrier: a command that panics -/

theorem wellFormed_New (N : Nat) (a : BarrierAction) : (NewCyclicBarrier N a).wellFormed := by
  simp [CyclicBarrier.wellFormed, NewCyclicBarrier]

theorem wellFormed_breakBarrier (b : CyclicBarrier) (h : b.wellFormed) :
    (breakBarrier b).wellFormed := by
  obtain ⟨hc, hp⟩ := h
  constructor
  · intro c hmem
    simp only [breakBarrier, List.mem_cons] at hmem ⊢
    rcases hmem with rfl | hmem
    · exact Nat.lt_succ_self _
    · exact Nat.lt_succ_of_lt (hc c hmem)
  · intro w hw
    simp only [breakBarrier, List.mem_cons] at hw ⊢
    rcases hp w hw with h1 | h2
    · exact Or.inr (Or.inl h1)
    · exact Or.inr (Or.inr h2)

/-- Every call of `Await` keeps the bookkeeping consistent. -/
theorem wellFormed_Await (b : CyclicBarrier) (p : Nat) (h : b.wellFormed) :
    (Await b p).1.wellFormed := by
  unfold Await
  simp only
  split
  · split
    · exact wellFormed_breakBarrier _ h
    · exact wellFormed_breakBarrier _ h
  · obtain ⟨hc, hp⟩ := h
    constructor
    · exact hc
    · intro w hw
      simp only [List.mem_cons] at hw
      rcases hw with rfl | hw
      · exact Or.inl rfl
      · exact hp w hw

theorem wellFormed_Reset (b : CyclicBarrier) (h : b.wellFormed) : (Reset b).wellFormed :=
  wellFormed_breakBarrier b h

theorem wellFormed_awaitAll (ps : List Nat) (b : CyclicBarrier) (h : b.wellFormed) :
    (awaitAll b ps).wellFormed := by
  induction ps generalizing b with
  | nil => exact h
  | cons p ps ih => exact ih _ (wellFormed_Await b p h)

/-- Breaking the barrier leaves nobody waiting: the gate that was current is
closed, and the older ones were closed before. -/
theorem stillParked_breakBarrier (b : CyclicBarrier) (h : b.wellFormed) :
    stillParked (breakBarrier b) = [] := by
  obtain ⟨_, hp⟩ := h
  simp only [stillParked, breakBarrier, List.filter_eq_nil_iff]
  intro w hw
  rcases hp w hw with h1 | h2
  · simp [h1]
  · simp [h2]

/-- C18. A barrier with consistent bookkeeping (any state reached from
`NewCyclicBarrier` by calls of `Await` and `Reset`) whose command panics, and
a caller of `Await` that finds the counter at 0 or 1 and so runs the command:
the call ends in the panic, and in the state it leaves the deferred
`breakBarrier` has run. The field holds a fresh gate (the next channel),
which is not closed and on which nobody waits; the gate it held before is
closed; and none of the parties that were waiting is waiting any more. -/
theorem barrier_panicking_command_still_breaks (b : CyclicBarrier) (p : Nat)
    (hwf : b.wellFormed) (htrip : b.parties ≤ 1)
    (hc : b.barrierCommand = BarrierAction.panics) :
    (Await b p).2 = AwaitResult.panicked ∧
    (Await b p).1.commandRuns = b.commandRuns + 1 ∧
    (Await b p).1.blockingQueue = b.blockingQueue + 1 ∧
    (Await b p).1.blockingQueue ∉ (Await b p).1.closed ∧
    (∀ w ∈ (Await b p).1.parked, w.2 ≠ (Await b p).1.blockingQueue) ∧
    b.blockingQueue ∈ (Await b p).1.closed ∧
    (Await b p).1.parked = b.parked ∧
    stillParked (Await b p).1 = [] := by
  have hA : Await b p
      = (breakBarrier { b with commandRuns := b.commandRuns + 1 }, AwaitResult.panicked) := by
    have h01 : b.parties = 0 ∨ b.parties = 1 := by omega
    rcases h01 with h0 | h1
    · simp [Await, h0, hc]
    · simp [Await, h1, hc]
  have hwf1 : ({ b with commandRuns := b.commandRuns + 1 } : CyclicBarrier).wellFormed := hwf
  have hwf2 := wellFormed_breakBarrier _ hwf1
  rw [hA]
  refine ⟨rfl, rfl, rfl, ?_, ?_, ?_, rfl, stillParked_breakBarrier _ hwf1⟩
  · intro hmem
    have hlt := hwf2.1 _ hmem
    exact Nat.lt_irrefl _ hlt
  · intro w hw heq
    obtain ⟨hcl, hp⟩ := hwf
    have hw1 : w ∈ b.parked := hw
    have heq1 : w.2 = b.blockingQueue + 1 := heq
    rcases hp w hw1 with h1 | h2
    · omega
    · have := hcl _ h2
      omega
  · simp [breakBarrier]

/-- Witness for `barrier_panicking_command_still_breaks`: three parties, a
command that panics; two parties wait and the third runs the command. -/
theorem barrier_panicking_command_still_breaks_witness :
    (Await (awaitAll (NewCyclicBarrier 3 BarrierAction.panics) [0, 1]) 2).2
      = AwaitResult.panicked ∧
    stillParked (awaitAll (NewCyclicBarrier 3 BarrierAction.panics) [0, 1]) = [(1, 0), (0, 0)] ∧
    stillParked (Await (awaitAll (NewCyclicBarrier 3 BarrierAction.panics) [0, 1]) 2).1 = [] :=
  ⟨(barrier_panicking_command_still_breaks
      (awaitAll (NewCyclicBarrier 3 BarrierAction.panics) [0, 1]) 2
      (by decide) (by decide) (by decide)).1,
   by decide,
   (barrier_panicking_command_still_breaks
      (awaitAll (NewCyclicBarrier 3 BarrierAction.panics) [0, 1]) 2
      (by decide) (by decide) (by decide)).2.2.2.2.2.2.2⟩

/-! ## Countdown latch: target zero, and calls after the target -/

/-- No run of calls of `CountDown` opens a latch made for zero. -/
theorem countDowns_zero_latch (m : Nat) :
    (countDowns m (NewCountDownLatch 0)).1.closed = false := by
  cases m with
  | zero => rfl
  | succ m => rfl

/-- C14. A latch made for zero: the constructor makes the channel and does
not close it, so `Await` waits; and the first `CountDown` (new count 1, above
`max` 0) panics and leaves the channel open, so does any run of calls. No
call ever opens this latch. -/
theorem latch_for_zero_never_opens :
    (NewCountDownLatch 0).closed = false ∧
    (NewCountDownLatch 0).awaitReturns = false ∧
    (CountDown (NewCountDownLatch 0)).2 = some "too many calls to CountDown" ∧
    (CountDown (NewCountDownLatch 0)).1.awaitReturns = false ∧
    (countDowns 5 (NewCountDownLatch 0)).1.awaitReturns = false := by
  decide

/-- C19. On the latch of the test (made for three) after its three calls, a
further `CountDown` does not return normally but panics, and it leaves the
count at 4, not at 3; the comment on `CountDown` says that nothing happens
then. -/
theorem latch_further_call_panics :
    (countDowns 3 (NewCountDownLatch 3)).1 = { count := 3, max := 3, closed := true } ∧
    (CountDown (countDowns 3 (NewCountDownLatch 3)).1).2 ≠ none ∧
    (CountDown (countDowns 3 (NewCountDownLatch 3)).1).1
      ≠ (countDowns 3 (NewCountDownLatch 3)).1 ∧
    CountDown (countDowns 3 (NewCountDownLatch 3)).1
      = ({ count := 4, max := 3, closed := true }, some "too many calls to CountDown") := by
  decide

/-! ## Semaphore: `TryAcquire`, `Release`, and the count of waiting callers -/

/-- C11, as stated, fails in two states. At the least `int32` (the count
`NewSemaphore(2147483648)` starts with) the decrement wraps to the greatest
one and `TryAcquire` returns `true`, with a count that is not above 0 and is
not reduced by one. And with a `Release` waiting to send (the state after
`NewSemaphore(0)`, a failed `TryAcquire` and a `Release`), `TryAcquire`
returns `false` although `Acquire` returns at once. -/
theorem tryAcquire_wrap_and_waiting_sender :
    (NewSemaphore 2147483648).permits = -2147483648 ∧
    (NewSemaphore 2147483648).TryAcquire
      = ({ permits := 2147483647, receivers := 0, senders := 0 }, CallResult.returned true) ∧
    (NewSemaphore 0).TryAcquire.1.Release.1 = { permits := 0, receivers := 0, senders := 1 } ∧
    (NewSemaphore 0).TryAcquire.1.Release.1.TryAcquire.2 = CallResult.returned false ∧
    (NewSemaphore 0).TryAcquire.1.Release.1.Acquire.2 = CallResult.returned true := by
  decide

/-- C11, amended. In every state whose count is an `int32` above the least
one: `TryAcquire` never waits; it returns `true` exactly when the count is
above 0 and `false` otherwise; when no `Release` is waiting to send, it
returns `false` exactly when `Acquire` would wait; and when it returns `true`
the count is one lower and nothing else has changed. -/
theorem tryAcquire_never_waits (s : Semaphore) (hlo : -2 ^ 31 < s.permits)
    (hhi : s.permits < 2 ^ 31) :
    s.TryAcquire.2 ≠ CallResult.blocked ∧
    (s.TryAcquire.2 = CallResult.returned true ↔ 0 < s.permits) ∧
    (s.TryAcquire.2 = CallResult.returned false ↔ s.permits ≤ 0) ∧
    (s.senders = 0 →
      (s.TryAcquire.2 = CallResult.returned false ↔ s.Acquire.2 = CallResult.blocked)) ∧
    (s.TryAcquire.2 = CallResult.returned true →
      s.TryAcquire.1 = { s with permits := s.permits - 1 }) := by
  have hw : wrapInt32 (s.permits - 1) = s.permits - 1 :=
    wrapInt32_of_range _ (by omega) (by omega)
  by_cases hpos : 0 < s.permits
  · have h0 : s.permits ≠ 0 := by omega
    have hnn : ¬ (s.permits - 1 < 0) := by omega
    have hnle : ¬ (s.permits ≤ 0) := by omega
    simp [Semaphore.TryAcquire, Semaphore.Acquire, Semaphore.acquire, hw, h0, hnn, hpos, hnle]
  · have hle : s.permits ≤ 0 := by omega
    have hcond : (s.permits == 0 || decide (s.permits - 1 < 0)) = true := by
      have : s.permits - 1 < 0 := by omega
      simp [this]
    simp only [Semaphore.TryAcquire, Semaphore.Acquire, Semaphore.acquire, hw, hcond]
    refine ⟨by simp, by simp [hpos], by simp [hle], ?_, by simp⟩
    intro hs
    simp [hs]

/-- Witness for `tryAcquire_never_waits`: the two calls of `TryAcquire` in
the test, at counts 1 and 0. -/
theorem tryAcquire_never_waits_witness :
    ((acquires 2 (NewSemaphore 3)).TryAcquire.2 = CallResult.returned true ↔
      0 < (acquires 2 (NewSemaphore 3)).permits) ∧
    ((acquires 3 (NewSemaphore 3)).TryAcquire.2 = CallResult.returned false ↔
      (acquires 3 (NewSemaphore 3)).permits ≤ 0) :=
  ⟨(tryAcquire_never_waits (acquires 2 (NewSemaphore 3)) (by decide) (by decide)).2.1,
   (tryAcquire_never_waits (acquires 3 (NewSemaphore 3)) (by decide) (by decide)).2.2.1⟩

/-- C16, as stated, fails at a count of 0 and at the greatest `int32`. On
`NewSemaphore(0)` the count before the call is 0 and `Release` raises it to
1, but nothing is sent: the call returns, and no send is left waiting for a
receiver. On `NewSemaphore(2147483647)` the increment wraps to the least
`int32`, which is not `c + 1`, and the call sends although `c > 0`. For
comparison, at a count of -1 with one caller waiting the send happens and
takes that caller off the channel. -/
theorem release_at_zero_sends_nothing :
    (NewSemaphore 0).permits = 0 ∧
    (NewSemaphore 0).Release
      = ({ permits := 1, receivers := 0, senders := 0 }, CallResult.returned true) ∧
    (NewSemaphore 2147483647).Release
      = ({ permits := -2147483648, receivers := 0, senders := 1 }, CallResult.blocked) ∧
    (NewSemaphore 0).Acquire.1 = { permits := -1, receivers := 1, senders := 0 } ∧
    (NewSemaphore 0).Acquire.1.Release
      = ({ permits := 0, receivers := 0, senders := 0 }, CallResult.returned true) := by
  decide

/-- C16, amended. In every state whose count `c` is an `int32` below the
greatest one, `Release` sets the count to `c + 1`. When `c < 0` it sends one
wake signal: with callers waiting to receive, exactly one of them takes it
and `Release` returns; with none, `Release` waits in the send. When `c >= 0`
it sends nothing and returns, and nobody is taken off the channel. -/
theorem release_sends_when_negative (s : Semaphore) (hlo : -2 ^ 31 ≤ s.permits)
    (hhi : s.permits < 2 ^ 31 - 1) :
    s.Release.1.permits = s.permits + 1 ∧
    (s.permits < 0 → 0 < s.receivers →
      s.Release = ({ s with permits := s.permits + 1, receivers := s.receivers - 1 },
        CallResult.returned true)) ∧
    (s.permits < 0 → s.receivers = 0 →
      s.Release = ({ s with permits := s.permits + 1, senders := s.senders + 1 },
        CallResult.blocked)) ∧
    (0 ≤ s.permits →
      s.Release = ({ s with permits := s.permits + 1 }, CallResult.returned true)) := by
  have hw : wrapInt32 (s.permits + 1) = s.permits + 1 :=
    wrapInt32_of_range _ (by omega) (by omega)
  by_cases hneg : s.permits < 0
  · have hle : s.permits + 1 ≤ 0 := by omega
    have hnn : ¬ (0 ≤ s.permits) := by omega
    refine ⟨?_, ?_, ?_, ?_⟩
    · by_cases hr : 0 < s.receivers
      · simp [Semaphore.Release, hw, hle, hr]
      · simp [Semaphore.Release, hw, hle, hr]
    · intro _ hr
      simp [Semaphore.Release, hw, hle, hr]
    · intro _ hr
      simp [Semaphore.Release, hw, hle, hr]
    · intro h
      exact absurd h hnn
  · have hnle : ¬ (s.permits + 1 ≤ 0) := by omega
    refine ⟨?_, ?_, ?_, ?_⟩
    · simp [Semaphore.Release, hw, hnle]
    · intro h
      exact absurd h hneg
    · intro h
      exact absurd h hneg
    · intro _
      simp [Semaphore.Release, hw, hnle]

/-- Witness for `release_sends_when_negative`: the run of the test, three
permits, four calls of `Acquire`, then the `Release` that wakes the fourth. -/
theorem release_sends_when_negative_witness :
    (acquires 4 (NewSemaphore 3)).Release
      = ({ acquires 4 (NewSemaphore 3) with
            permits := (acquires 4 (NewSemaphore 3)).permits + 1,
            receivers := (acquires 4 (NewSemaphore 3)).receivers - 1 },
          CallResult.returned true) :=
  (release_sends_when_negative (acquires 4 (NewSemaphore 3)) (by decide) (by decide)).2.1
    (by decide) (by decide)

/-- One call that is not a failing `TryAcquire`, on a count at least one
away from both ends of `int32`, keeps the count in step with the waiting
callers, leaves no sender waiting, and moves the count by at most one. -/
theorem applyOp_keeps_count_matching (s : Semaphore) (op : SemOp)
    (hsend : s.senders = 0) (hinv : s.countMatchesBlocked)
    (hlo : -2 ^ 31 < s.permits - 1) (hhi : s.permits + 1 < 2 ^ 31)
    (hok : op = SemOp.tryAcquire → (s.applyOp op).2 = CallResult.returned true) :
    (s.applyOp op).1.senders = 0 ∧ (s.applyOp op).1.countMatchesBlocked ∧
    s.permits - 1 ≤ (s.applyOp op).1.permits ∧ (s.applyOp op).1.permits ≤ s.permits + 1 := by
  obtain ⟨hneg, hnonneg⟩ := hinv
  have hwm : wrapInt32 (s.permits - 1) = s.permits - 1 :=
    wrapInt32_of_range _ (by omega) (by omega)
  have hwp : wrapInt32 (s.permits + 1) = s.permits + 1 :=
    wrapInt32_of_range _ (by omega) (by omega)
  cases op with
  | acquire =>
    by_cases hpos : 0 < s.permits
    · have h0 : s.permits ≠ 0 := by omega
      have hnn : ¬ (s.permits - 1 < 0) := by omega
      have hr : s.receivers = 0 := hnonneg (by omega)
      simp only [Semaphore.applyOp, Semaphore.Acquire, Semaphore.acquire, hwm,
        Semaphore.countMatchesBlocked]
      simp [h0, hnn, hsend, hr]
      omega
    · have hcond : (s.permits == 0 || decide (s.permits - 1 < 0)) = true := by
        have : s.permits - 1 < 0 := by omega
        simp [this]
      simp only [Semaphore.applyOp, Semaphore.Acquire, Semaphore.acquire, hwm, hcond,
        Semaphore.countMatchesBlocked]
      simp [hsend]
      omega
  | tryAcquire =>
    have hres := hok rfl
    by_cases hpos : 0 < s.permits
    · have h0 : s.permits ≠ 0 := by omega
      have hnn : ¬ (s.permits - 1 < 0) := by omega
      have hr : s.receivers = 0 := hnonneg (by omega)
      simp only [Semaphore.applyOp, Semaphore.TryAcquire, Semaphore.acquire, hwm,
        Semaphore.countMatchesBlocked]
      simp [h0, hnn, hsend, hr]
      omega
    · exfalso
      have hcond : (s.permits == 0 || decide (s.permits - 1 < 0)) = true := by
        have : s.permits - 1 < 0 := by omega
        simp [this]
      have hfalse : (s.applyOp SemOp.tryAcquire).2 = CallResult.returned false := by
        simp only [Semaphore.applyOp, Semaphore.TryAcquire, Semaphore.acquire, hwm, hcond]
        simp
      rw [hfalse] at hres
      cases hres
  | release =>
    by_cases hneg1 : s.permits < 0
    · have hle : s.permits + 1 ≤ 0 := by omega
      have hr := hneg hneg1
      have hrpos : 0 < s.receivers := by omega
      simp only [Semaphore.applyOp, Semaphore.Release, hwp, Semaphore.countMatchesBlocked]
      simp [hle, hrpos, hsend]
      omega
    · have hnle : ¬ (s.permits + 1 ≤ 0) := by omega
      have hr : s.receivers = 0 := hnonneg (by omega)
      simp only [Semaphore.applyOp, Semaphore.Release, hwp, Semaphore.countMatchesBlocked]
      simp [hnle, hsend, hr]
      omega

/-- A run in which no `TryAcquire` fails, short enough for the count not to
reach either end of `int32`, keeps the count in step with the waiting
callers. -/
theorem run_keeps_count_matching (ops : List SemOp) (s : Semaphore)
    (hsend : s.senders = 0) (hinv : s.countMatchesBlocked)
    (hlo : -2 ^ 31 < s.permits - ops.length) (hhi : s.permits + ops.length < 2 ^ 31)
    (hok : s.tryAcquiresSucceed ops = true) :
    (s.run ops).senders = 0 ∧ (s.run ops).countMatchesBlocked := by
  induction ops generalizing s with
  | nil => exact ⟨hsend, hinv⟩
  | cons op ops ih =>
    simp only [List.length_cons, Nat.cast_add, Nat.cast_one] at hlo hhi
    simp only [Semaphore.tryAcquiresSucceed, Bool.and_eq_true, Bool.or_eq_true] at hok
    obtain ⟨hop, hrest⟩ := hok
    have hstep := applyOp_keeps_count_matching s op hsend hinv (by omega) (by omega) (by
      intro hop1
      rcases hop with h1 | h2
      · simp [hop1] at h1
      · simpa using h2)
    obtain ⟨h1, h2, h3, h4⟩ := hstep
    exact ih _ h1 h2 (by omega) (by omega) hrest

/-- C15, as stated, fails. After `NewSemaphore(0)` and one `TryAcquire` (which
returns `false`) the count is -1 and no caller waits. And
`NewSemaphore(2147483649)`, before any call, has the count -2147483647 and
no caller waits. -/
theorem semaphore_negative_count_without_waiters :
    ((NewSemaphore 0).run [SemOp.tryAcquire])
      = { permits := -1, receivers := 0, senders := 0 } ∧
    ¬ ((NewSemaphore 0).run [SemOp.tryAcquire]).countMatchesBlocked ∧
    ((NewSemaphore 2147483649).run [])
      = { permits := -2147483647, receivers := 0, senders := 0 } ∧
    ¬ ((NewSemaphore 2147483649).run []).countMatchesBlocked := by
  decide

/-- C15, amended. From `NewSemaphore(P)`, after any run of calls of `Acquire`,
`Release` and `TryAcquire` in which no `TryAcquire` fails, short enough for
the 32-bit count not to wrap (`P` plus the number of calls is below `2^31`):
a negative count `-k` goes with exactly `k` callers waiting on the channel,
a count that is not negative goes with none, and no `Release` is waiting to
send. -/
theorem semaphore_count_matches_blocked (P : Nat) (ops : List SemOp)
    (hlen : P + ops.length < 2 ^ 31)
    (hok : (NewSemaphore P).tryAcquiresSucceed ops = true) :
    (((NewSemaphore P).run ops).permits < 0 →
      (((NewSemaphore P).run ops).receivers : Int) = -((NewSemaphore P).run ops).permits) ∧
    (0 ≤ ((NewSemaphore P).run ops).permits → ((NewSemaphore P).run ops).receivers = 0) ∧
    ((NewSemaphore P).run ops).senders = 0 := by
  have hperm : (NewSemaphore P).permits = (P : Int) := by
    simp only [NewSemaphore]
    exact wrapInt32_of_range _ (by omega) (by omega)
  have hinv : (NewSemaphore P).countMatchesBlocked := by
    constructor
    · intro h
      rw [hperm] at h
      omega
    · intro _
      rfl
  have h := run_keeps_count_matching ops (NewSemaphore P) rfl hinv
    (by rw [hperm]; omega) (by rw [hperm]; omega) hok
  exact ⟨h.2.1, h.2.2, h.1⟩

/-- Witness for `semaphore_count_matches_blocked`: three permits; two calls
of `Acquire`, a `TryAcquire` that succeeds, two calls of `Acquire` that wait,
one `Release`: the count is -1 and one caller waits. -/
theorem semaphore_count_matches_blocked_witness :
    ((NewSemaphore 3).run [SemOp.acquire, SemOp.acquire, SemOp.tryAcquire, SemOp.acquire,
        SemOp.acquire, SemOp.release]).permits = -1 ∧
    (0 ≤ ((NewSemaphore 3).run [SemOp.acquire, SemOp.acquire, SemOp.tryAcquire, SemOp.acquire,
        SemOp.acquire, SemOp.release]).permits →
      ((NewSemaphore 3).run [SemOp.acquire, SemOp.acquire, SemOp.tryAcquire, SemOp.acquire,
        SemOp.acquire, SemOp.release]).receivers = 0) ∧
    ((NewSemaphore 3).run [SemOp.acquire, SemOp.acquire, SemOp.tryAcquire, SemOp.acquire,
        SemOp.acquire, SemOp.release]).receivers = 1 :=
  ⟨by decide,
   (semaphore_count_matches_blocked 3 [SemOp.acquire, SemOp.acquire, SemOp.tryAcquire,
      SemOp.acquire, SemOp.acquire, SemOp.release] (by norm_num) (by decide)).2.1,
   by decide⟩

/-! ## Future: `Cancel`, tasks that fail, and the order of the deferred calls -/

/-- Once the flag `cancelled` is set, nothing that happens to the future
calls `cancelFunc`. -/
theorem applyOp_keeps_cancelFuncCalls {V : Type} [Inhabited V] (s : FutureRun V)
    (op : FutureOp) (h : s.future.cancelled = true) :
    (s.applyOp op).future.cancelFuncCalls = s.future.cancelFuncCalls := by
  cases op with
  | go =>
    simp only [FutureRun.applyOp, FutureRun.goStep]
    split
    · split <;> rfl
    · rfl
    · split
      · split <;> rfl
      · rfl
    · rfl
    · split <;> rfl
    · rfl
    · rfl
  | get pickCtx => simp [FutureRun.applyOp, FutureTask.Get, FutureTask.Cancelled, h]
  | recv =>
    simp only [FutureRun.applyOp, FutureTask.recvChan]
    split <;> rfl
  | cancel => simp [FutureRun.applyOp, FutureTask.Cancel, h]
  | ctxDone e =>
    simp only [FutureRun.applyOp]
    split <;> rfl

theorem applyOps_keeps_cancelFuncCalls {V : Type} [Inhabited V] (s : FutureRun V)
    (ops : List FutureOp) (h : s.future.cancelled = true) :
    (s.applyOps ops).future.cancelFuncCalls = s.future.cancelFuncCalls := by
  induction ops generalizing s with
  | nil => rfl
  | cons op ops ih =>
    rw [FutureRun.applyOps, ih _ (applyOp_keeps_cancelled s op h),
      applyOp_keeps_cancelFuncCalls s op h]

/-- C12. In any state of a future on which no `Cancel` has succeeded yet (the
flag is not set): the first `Cancel` returns `true`, sets the flag, calls
`cancelFunc` once and changes nothing else. After it, whatever happens next
(steps of the goroutine, calls of `Get` and `Cancel`, receives, the context
becoming done), every `Cancel` returns `false` and leaves the future exactly
as it is, so `cancelFunc` has still been called once only. -/
theorem cancel_is_idempotent {V : Type} [Inhabited V] (s : FutureRun V)
    (hfirst : s.future.Cancelled = false) (ops : List FutureOp) :
    s.future.Cancel
      = ({ s.future with cancelled := true,
                         cancelFuncCalls := s.future.cancelFuncCalls + 1 }, true) ∧
    ((s.applyOp FutureOp.cancel).applyOps ops).future.Cancel
      = (((s.applyOp FutureOp.cancel).applyOps ops).future, false) ∧
    ((s.applyOp FutureOp.cancel).applyOps ops).future.Cancelled = true ∧
    ((s.applyOp FutureOp.cancel).applyOps ops).future.cancelFuncCalls
      = s.future.cancelFuncCalls + 1 := by
  have hflag : s.future.cancelled = false := hfirst
  have hcall : s.future.Cancel
      = ({ s.future with cancelled := true,
                         cancelFuncCalls := s.future.cancelFuncCalls + 1 }, true) := by
    simp [FutureTask.Cancel, hflag]
  have hset : (s.applyOp FutureOp.cancel).future.cancelled = true := by
    simp [FutureRun.applyOp, hcall]
  have hcount : (s.applyOp FutureOp.cancel).future.cancelFuncCalls
      = s.future.cancelFuncCalls + 1 := by
    simp [FutureRun.applyOp, hcall]
  have hlater := applyOps_keeps_cancelled _ ops hset
  refine ⟨hcall, ?_, hlater, ?_⟩
  · simp [FutureTask.Cancel, hlater]
  · rw [applyOps_keeps_cancelFuncCalls _ ops hset, hcount]

/-- Witness for `cancel_is_idempotent`: a new future whose task is still
running; `Cancel`, a step of the goroutine, and `Cancel` again. -/
theorem cancel_is_idempotent_witness :
    (FutureGo none (TaskOutcome.returns 5 none)).future.Cancel.2 = true ∧
    ((((FutureGo none (TaskOutcome.returns 5 none)).applyOp FutureOp.cancel).applyOps
        [FutureOp.go]).future.Cancel).2 = false ∧
    (((FutureGo none (TaskOutcome.returns 5 none)).applyOp FutureOp.cancel).applyOps
        [FutureOp.go, FutureOp.cancel]).future.cancelFuncCalls = 1 :=
  ⟨congrArg Prod.snd
      (cancel_is_idempotent (FutureGo none (TaskOutcome.returns 5 none)) rfl []).1,
   congrArg Prod.snd
      (cancel_is_idempotent (FutureGo none (TaskOutcome.returns 5 none)) rfl
        [FutureOp.go]).2.1,
   (cancel_is_idempotent (FutureGo none (TaskOutcome.returns 5 none)) rfl
        [FutureOp.go, FutureOp.cancel]).2.2.2⟩

/-- The run of a task that panics with `r`, context not done, nobody else
touching the future: after four steps the goroutine has ended, the channel
is closed and empty, the error made from the text of `r` is stored and
`done` is set. -/
theorem goSteps_panic {V : Type} (r : PanicValue) :
    FutureRun.goSteps 4 (FutureGo none (TaskOutcome.panics r) : FutureRun V) =
      { future := { v := none, vClosed := true, cancelled := false, done := true,
                    err := some (GoError.errorsNew r.text), ctx := none,
                    cancelFuncCalls := 0 },
        task := TaskOutcome.panics r,
        pc := Goroutine.exited } := by
  simp [FutureRun.goSteps, FutureRun.goStep, FutureGo, newFutureTask]

/-- C13, amended. A task that panics with a value `r` that is not nil, future
not cancelled, context not done: the goroutine comes to its end (the deferred function recovers the
panic), and from then on `Done()` is true, the stored error is not nil and
its text is the "%v" text of `r`, and `Get()` does not wait and returns the
zero value of `V` with that error. -/
theorem task_panic_is_recovered {V : Type} [Inhabited V] (r : PanicValue) (pickCtx : Bool)
    (n : Nat) (hn : 4 ≤ n) :
    (FutureRun.goSteps n (FutureGo none (TaskOutcome.panics r) : FutureRun V)).pc
      = Goroutine.exited ∧
    (FutureRun.goSteps n (FutureGo none (TaskOutcome.panics r) : FutureRun V)).future.Done
      = true ∧
    (∃ e, (FutureRun.goSteps n (FutureGo none (TaskOutcome.panics r) : FutureRun V)).future.err
        = some e ∧ e.Error = r.text) ∧
    ((FutureRun.goSteps n (FutureGo none (TaskOutcome.panics r) : FutureRun V)).future.Get
        pickCtx).2 = GetResult.returned default (some (GoError.errorsNew r.text)) := by
  obtain ⟨m, rfl⟩ : ∃ m, n = 4 + m := ⟨n - 4, by omega⟩
  rw [goSteps_add, goSteps_panic, goSteps_exited m _ rfl]
  refine ⟨rfl, rfl, ⟨GoError.errorsNew r.text, rfl, rfl⟩, ?_⟩
  simp [FutureTask.Get, FutureTask.Cancelled, FutureTask.selectGet]

/-- C13, as stated, fails for `panic(nil)` built for a language version
before 1.21: `recover()` returns nil, the test `r != nil` of the deferred
function fails and no error is stored. The goroutine ends and `Done()` is
true, but the stored error is nil and `Get()` returns the zero value with a
nil error. -/
theorem task_panic_nil_leaves_no_error :
    (FutureRun.goSteps 4
        (FutureGo none (TaskOutcome.panicsNil none) : FutureRun Nat)).pc = Goroutine.exited ∧
    (FutureRun.goSteps 4
        (FutureGo none (TaskOutcome.panicsNil none) : FutureRun Nat)).future.Done = true ∧
    (FutureRun.goSteps 4
        (FutureGo none (TaskOutcome.panicsNil none) : FutureRun Nat)).future.err = none ∧
    ((FutureRun.goSteps 4
        (FutureGo none (TaskOutcome.panicsNil none) : FutureRun Nat)).future.Get false).2
      = GetResult.returned 0 none := by
  decide

/-- Witness for `task_panic_is_recovered`: a task that panics with "boom". -/
theorem task_panic_is_recovered_witness :
    ((FutureRun.goSteps 4
        (FutureGo none (TaskOutcome.panics { text := "boom" }) : FutureRun Nat)).future.Get
        false).2 = GetResult.returned 0 (some (GoError.errorsNew "boom")) :=
  (task_panic_is_recovered { text := "boom" } false 4 (le_refl 4)).2.2.2

/-- The run of a task that returns `(v, e)` with `e` not nil: after six
steps the goroutine has ended, the channel is closed and empty, `e` is
stored and `done` is set. -/
theorem goSteps_error {V : Type} (v : V) (e : GoError) :
    FutureRun.goSteps 6 (FutureGo none (TaskOutcome.returns v (some e))) =
      { future := { v := none, vClosed := true, cancelled := false, done := true,
                    err := some e, ctx := none, cancelFuncCalls := 0 },
        task := TaskOutcome.returns v (some e),
        pc := Goroutine.exited } := by
  simp [FutureRun.goSteps, FutureRun.goStep, FutureGo, newFutureTask]

/-- C17. A task that returns `(v, e)` with `e` not nil, future not cancelled,
context not done: at no point of the run does the channel hold a value; and
once the goroutine has ended, the stored error is `e`, `Done()` is true, and
`Get()` does not wait and returns the zero value of `V` with `e`. -/
theorem task_error_is_kept {V : Type} [Inhabited V] (v : V) (e : GoError) (pickCtx : Bool) :
    (∀ n, (FutureRun.goSteps n (FutureGo none (TaskOutcome.returns v (some e)))).future.v
        = none) ∧
    (∀ n, 6 ≤ n →
      (FutureRun.goSteps n (FutureGo none (TaskOutcome.returns v (some e)))).pc
        = Goroutine.exited ∧
      (FutureRun.goSteps n (FutureGo none (TaskOutcome.returns v (some e)))).future.err
        = some e ∧
      (FutureRun.goSteps n (FutureGo none (TaskOutcome.returns v (some e)))).future.Done
        = true ∧
      ((FutureRun.goSteps n (FutureGo none (TaskOutcome.returns v (some e)))).future.Get
        pickCtx).2 = GetResult.returned default (some e)) := by
  have hlate : ∀ n, 6 ≤ n →
      FutureRun.goSteps n (FutureGo none (TaskOutcome.returns v (some e)))
        = FutureRun.goSteps 6 (FutureGo none (TaskOutcome.returns v (some e))) := by
    intro n hn
    obtain ⟨m, rfl⟩ : ∃ m, n = 6 + m := ⟨n - 6, by omega⟩
    rw [goSteps_add, goSteps_error, goSteps_exited m _ rfl]
  constructor
  · intro n
    by_cases hn : 6 ≤ n
    · rw [hlate n hn, goSteps_error]
    · have hlt : n < 6 := by omega
      interval_cases n <;>
        simp [FutureRun.goSteps, FutureRun.goStep, FutureGo, newFutureTask]
  · intro n hn
    rw [hlate n hn, goSteps_error]
    refine ⟨rfl, rfl, rfl, ?_⟩
    simp [FutureTask.Get, FutureTask.Cancelled, FutureTask.selectGet]

/-- Witness for `task_error_is_kept`: a task that returns the value 5 and an
error. -/
theorem task_error_is_kept_witness :
    ((FutureRun.goSteps 6
        (FutureGo none (TaskOutcome.returns 5 (some (GoError.errorsNew "failed"))))).future.Get
        false).2 = GetResult.returned 0 (some (GoError.errorsNew "failed")) :=
  ((task_error_is_kept 5 (GoError.errorsNew "failed") false).2 6 (le_refl 6)).2.2.2

/-- C20. A task that panics with "boom". When the task has panicked and the
deferred `close(future.v)` has run (two steps), the goroutine stands before
the deferred function that recovers: the channel is closed, no value has been
sent on it, and the stored error is still nil. A `Get()` that was waiting
(one step earlier it waits) is woken by the close, and it returns the zero
value with a nil error; so does a `Get()` called in that state. The error is
stored one step later. -/
theorem channel_closed_before_error_stored :
    (FutureRun.goSteps 2
        (FutureGo none (TaskOutcome.panics { text := "boom" }) : FutureRun Nat)).pc
      = Goroutine.deferredRecover (some { text := "boom" }) ∧
    (FutureRun.goSteps 2
        (FutureGo none (TaskOutcome.panics { text := "boom" }) : FutureRun Nat)).future
      = { v := none, vClosed := true, cancelled := false, done := false, err := none,
          ctx := none, cancelFuncCalls := 0 } ∧
    ((FutureRun.goSteps 1
        (FutureGo none (TaskOutcome.panics { text := "boom" }) : FutureRun Nat)).future.Get
        false).2 = GetResult.blocked ∧
    ((FutureRun.goSteps 2
        (FutureGo none (TaskOutcome.panics { text := "boom" }) : FutureRun Nat)).future.selectGet
        false).2 = GetResult.returned 0 none ∧
    ((FutureRun.goSteps 2
        (FutureGo none (TaskOutcome.panics { text := "boom" }) : FutureRun Nat)).future.Get
        false).2 = GetResult.returned 0 none ∧
    (FutureRun.goSteps 3
        (FutureGo none (TaskOutcome.panics { text := "boom" }) : FutureRun Nat)).future.err
      = some (GoError.errorsNew "boom") := by
  decide

/-! ## Cyclic barrier: goroutines that interleave inside `Await` -/

/-- The function `Await` is the call run without interruption: a goroutine
that is about to begin `Await` and takes six steps in a row, on a barrier
whose current gate is open, leaves the barrier as `Await` does and ends where
`Await` says (waiting on the gate, returned, or panicked). -/
theorem run_alone_eq_Await (b : CyclicBarrier) (pcs : List AwaitPc) (i : Nat)
    (hi : pcs[i]? = some AwaitPc.load) (hopen : b.blockingQueue ∉ b.closed) :
    ∃ pc, ({ barrier := b, pcs := pcs } : BarrierRun).run (List.replicate 6 i)
        = { barrier := (Await b i).1, pcs := pcs.set i pc } ∧
      pc.result = some (Await b i).2 := by
  have hlt : i < pcs.length := by
    rcases Nat.lt_or_ge i pcs.length with h | h
    · exact h
    · rw [List.getElem?_eq_none h] at hi
      cases hi
  have hget : ∀ x : AwaitPc, (pcs.set i x)[i]? = some x := fun x =>
    List.getElem?_set_self hlt
  by_cases h2 : 2 ≤ b.parties
  · have h0 : b.parties ≠ 0 := by omega
    have h1 : b.parties ≠ 1 := by omega
    refine ⟨AwaitPc.waiting b.blockingQueue, ?_, ?_⟩
    · rw [Await_of_two_le b i h2]
      simp [List.replicate, BarrierRun.run, BarrierRun.step, hi, hget, h0, h1, hopen,
        List.set_set]
    · rw [Await_of_two_le b i h2]
      rfl
  · have hle : b.parties ≤ 1 := by omega
    have h01 : b.parties = 0 ∨ b.parties = 1 := by omega
    cases hc : b.barrierCommand with
    | returns =>
      refine ⟨AwaitPc.returned, ?_, ?_⟩
      · rw [Await_of_le_one b i hle hc]
        rcases h01 with h | h <;>
          simp [List.replicate, BarrierRun.run, BarrierRun.step, hi, hget, h, hc, hopen,
            List.set_set, breakBarrier]
      · rw [Await_of_le_one b i hle hc]
        rfl
    | panics =>
      have hA : Await b i
          = (breakBarrier { b with commandRuns := b.commandRuns + 1 },
              AwaitResult.panicked) := by
        rcases h01 with h | h <;> simp [Await, h, hc]
      refine ⟨AwaitPc.panicked, ?_, ?_⟩
      · rw [hA]
        rcases h01 with h | h <;>
          simp [List.replicate, BarrierRun.run, BarrierRun.step, hi, hget, h, hc, hopen,
            List.set_set, breakBarrier]
      · rw [hA]
        rfl

/-- A state in which no goroutine can take a step stays as it is under every
schedule. -/
theorem run_of_no_step (r : BarrierRun) (h : ∀ i, r.step i = r) (sched : List Nat) :
    r.run sched = r := by
  induction sched with
  | nil => rfl
  | cons i sched ih => rw [BarrierRun.run, h i, ih]

/-- C3. Three goroutines call `Await` on `NewCyclicBarrier(3, action)`.
Goroutine 0 loads 3 and swaps in 2, and is then not scheduled; goroutine 1
loads 2, swaps in 1 and waits on gate 0; goroutine 2 loads 1, runs the action
and breaks the barrier (gate 1 goes into the field, gate 0 is closed).
Goroutine 0 now reads the field, finds gate 1 and waits on it. Goroutines 1
and 2 have returned and the action has run once, but goroutine 0 waits on a
gate that is open, and no step of any goroutine changes that state any
more. When goroutine 0 is not held up between its swap and its receive, all
three return. -/
theorem barrier_receive_after_trip_waits_on_fresh_gate :
    ((BarrierRun.start (NewCyclicBarrier 3 BarrierAction.returns) 3).run
        [0, 0, 1, 1, 1]).pcs = [AwaitPc.recv, AwaitPc.waiting 0, AwaitPc.load] ∧
    ((BarrierRun.start (NewCyclicBarrier 3 BarrierAction.returns) 3).run
        [0, 0, 1, 1, 1, 2, 2, 2, 2, 2, 2]) =
      { barrier := { parties := 1, count := 1, barrierCommand := BarrierAction.returns,
                     blockingQueue := 1, closed := [0], parked := [(1, 0)],
                     commandRuns := 1 },
        pcs := [AwaitPc.recv, AwaitPc.waiting 0, AwaitPc.returned] } ∧
    ((BarrierRun.start (NewCyclicBarrier 3 BarrierAction.returns) 3).run
        [0, 0, 1, 1, 1, 2, 2, 2, 2, 2, 2, 0, 1]) =
      { barrier := { parties := 1, count := 1, barrierCommand := BarrierAction.returns,
                     blockingQueue := 1, closed := [0], parked := [(0, 1), (1, 0)],
                     commandRuns := 1 },
        pcs := [AwaitPc.waiting 1, AwaitPc.returned, AwaitPc.returned] } ∧
    (∀ sched : List Nat,
      (((BarrierRun.start (NewCyclicBarrier 3 BarrierAction.returns) 3).run
        [0, 0, 1, 1, 1, 2, 2, 2, 2, 2, 2, 0, 1]).run sched).pcs
        = [AwaitPc.waiting 1, AwaitPc.returned, AwaitPc.returned]) ∧
    ((BarrierRun.start (NewCyclicBarrier 3 BarrierAction.returns) 3).run
        [0, 0, 0, 1, 1, 1, 2, 2, 2, 2, 2, 2, 0, 1]).pcs
      = [AwaitPc.returned, AwaitPc.returned, AwaitPc.returned] := by
  have hfinal : ((BarrierRun.start (NewCyclicBarrier 3 BarrierAction.returns) 3).run
        [0, 0, 1, 1, 1, 2, 2, 2, 2, 2, 2, 0, 1]) =
      { barrier := { parties := 1, count := 1, barrierCommand := BarrierAction.returns,
                     blockingQueue := 1, closed := [0], parked := [(0, 1), (1, 0)],
                     commandRuns := 1 },
        pcs := [AwaitPc.waiting 1, AwaitPc.returned, AwaitPc.returned] } := by
    decide
  refine ⟨by decide, by decide, hfinal, ?_, by decide⟩
  intro sched
  rw [hfinal, run_of_no_step _ ?_ sched]
  intro i
  match i with
  | 0 => decide
  | 1 => decide
  | 2 => decide
  | n + 3 => simp [BarrierRun.step]

end GoConcurrent
